import Mathlib

/-!
# Game of Fifteen (`pset3/fifteen/fifteen.c`)

A shallow embedding of `fifteen.c`: the globals `d`, `board`, `sorted_board`,
`empty_column`, `empty_row`, and the functions `init`, `draw`, `move`, `won`, `clear`,
`greet` and `main`.

Modelling conventions.

* A C `int` is a Lean `Int`.  For dimensions `3 ≤ d ≤ 9` all values that occur are at most
  `81` in absolute value, so no machine arithmetic overflows.
* The arrays `int board[DIM_MAX][DIM_MAX]` are total maps `Int → Int → Int` from (row index,
  column index) to the stored value; an assignment `board[i][j] = v` is `setCell`.
  For `d ≤ DIM_MAX` the code only touches indices in `[0, d) × [0, d)`, which is where the
  map and the array agree.
* Standard output is the field `out` of the state, so that a function that prints is visible
  as one that changes `out`.
* A loop `for (int i = 0; i < d; i++)` runs over `intRange d = [0, 1, ..., d - 1]`.
* `main` is run on what its environment supplies: `argc`, the value of `atoi(argv[1])`,
  whether `fopen` succeeds, and the integers that `get_int` returns.  The pauses of `usleep`
  are left out.
-/

namespace Fifteen

/-- The constant `DIM_MIN`. -/
def DIM_MIN : Int := 3

/-- The constant `DIM_MAX`. -/
def DIM_MAX : Int := 9

/-- The globals of `fifteen.c`, together with what has been printed so far. -/
structure State where
  /-- The global `int d`. -/
  d : Int
  /-- The global `int board[DIM_MAX][DIM_MAX]`, read as `board i j` for `board[i][j]`. -/
  board : Int → Int → Int
  /-- The global `int sorted_board[DIM_MAX][DIM_MAX]`. -/
  sorted_board : Int → Int → Int
  /-- The global `int empty_column` (used by the code as the FIRST index of the blank). -/
  empty_column : Int
  /-- The global `int empty_row` (used by the code as the SECOND index of the blank). -/
  empty_row : Int
  /-- Everything written to standard output so far. -/
  out : String

/-- The values taken by the loop variable of `for (int i = 0; i < n; i++)`. -/
def intRange (n : Int) : List Int := (List.range n.toNat).map Int.ofNat

/-- The assignment `b[i][j] = v`. -/
def setCell (b : Int → Int → Int) (i j v : Int) : Int → Int → Int :=
  fun x y => if x = i ∧ y = j then v else b x y

/-! ## `init` -/

/-- The local variables and arrays that the fill loop of `init` updates. -/
structure InitLoop where
  /-- The array `board`. -/
  board : Int → Int → Int
  /-- The array `sorted_board`. -/
  sorted_board : Int → Int → Int
  /-- The local `num_of_tiles`. -/
  num_of_tiles : Int
  /-- The local `sorted_tile`. -/
  sorted_tile : Int

/-- The body of the inner loop of `init` (lines 176-180) at row `i`, column `j`. -/
def initCell (i : Int) (a : InitLoop) (j : Int) : InitLoop :=
  { board := setCell a.board i j a.num_of_tiles
    sorted_board := setCell a.sorted_board i j a.sorted_tile
    num_of_tiles := a.num_of_tiles - 1
    sorted_tile := a.sorted_tile + 1 }

/-- The inner loop `for (int j = 0; j < d; j++)` of `init` at row `i`. -/
def initRow (d : Int) (a : InitLoop) (i : Int) : InitLoop :=
  (intRange d).foldl (initCell i) a

/-- The two nested fill loops of `init` (lines 167-184), before the parity fix. -/
def initFill (s : State) : InitLoop :=
  (intRange s.d).foldl (initRow s.d)
    { board := s.board
      sorted_board := s.sorted_board
      num_of_tiles := s.d * s.d - 1
      sorted_tile := 1 }

/-- The function `init` (lines 164-198).  The test `d % 2 == 0` holds exactly for even `d`,
with C's remainder as with Lean's. -/
def init (s : State) : State :=
  let a := initFill s
  { d := s.d
    board :=
      if s.d % 2 = 0 then
        setCell (setCell a.board (s.d - 1) (s.d - 2) 2) (s.d - 1) (s.d - 3) 1
      else a.board
    sorted_board := setCell a.sorted_board (s.d - 1) (s.d - 1) 0
    empty_column := s.d - 1
    empty_row := s.d - 1
    out := s.out }

/-! ## `move` -/

/-- The test of lines 242-243: does cell `(i, j)` border the empty space? -/
def borders (s : State) (i j : Int) : Prop :=
  (i = s.empty_column ∧ (j = s.empty_row - 1 ∨ j = s.empty_row + 1)) ∨
  (j = s.empty_row ∧ (i = s.empty_column - 1 ∨ i = s.empty_column + 1))

instance (s : State) (i j : Int) : Decidable (borders s i j) := by
  unfold borders; infer_instance

/-- The body of the inner loop of `move` (lines 237-252) at cell `(i, j)`: `some s1` when the
body returns `true` leaving the globals as `s1`, `none` when the loop goes on. -/
def moveAt (s : State) (tile i j : Int) : Option State :=
  if tile = s.board i j then
    if borders s i j then
      some { s with
        board := setCell (setCell s.board s.empty_column s.empty_row tile) i j 0
        empty_column := i
        empty_row := j }
    else none
  else none

/-- The function `move` (lines 229-256): the returned `bool` and the globals afterwards.
The two loops scan the cells in row-major order and stop at the first cell whose body
returns; when none does, the function returns `false` having written nothing. -/
def move (tile : Int) (s : State) : Bool × State :=
  match (intRange s.d).findSome? (fun i => (intRange s.d).findSome? (fun j => moveAt s tile i j)) with
  | some s1 => (true, s1)
  | none => (false, s)

/-! ## `won` -/

/-- The inner loop of `won` (lines 268-276) at row `i`, updating `is_sorted`. -/
def wonRow (s : State) (i : Int) (is_sorted : Bool) : Bool :=
  (intRange s.d).foldl
    (fun acc j => if s.board i j ≠ s.sorted_board i j then false else acc) is_sorted

/-- The outer loop of `won` (lines 266-278), updating `is_sorted` and printing a newline after
each row. -/
def wonLoop (s : State) : Bool × String :=
  (intRange s.d).foldl (fun acc i => (wonRow s i acc.1, acc.2 ++ "\n")) (true, s.out)

/-- The function `won` (lines 262-288): the returned `bool` and the globals afterwards. -/
def won (s : State) : Bool × State :=
  ((wonLoop s).1, { s with out := (wonLoop s).2 })

/-! ## Vocabulary of the specification -/

/-- Cell `(i, j)` lies on the `d x d` board. -/
def inBoard (d i j : Int) : Prop := 0 ≤ i ∧ i < d ∧ 0 ≤ j ∧ j < d

instance (d i j : Int) : Decidable (inBoard d i j) := by
  unfold inBoard; infer_instance

/-- Cells `(i, j)` and `(bi, bj)` are 4-directionally adjacent: same row with column
offset `+1` or `-1`, or same column with row offset `+1` or `-1`. -/
def adjacent (i j bi bj : Int) : Prop :=
  (i = bi ∧ (j - bj = 1 ∨ j - bj = -1)) ∨ (j = bj ∧ (i - bi = 1 ∨ i - bi = -1))

instance (i j bi bj : Int) : Decidable (adjacent i j bi bj) := by
  unfold adjacent; infer_instance

/-- The states the program can be in after `init()` followed by any number of calls of
`move`, with arbitrary arguments. -/
inductive Reachable : State → Prop
  | init (s0 : State) : Reachable (init s0)
  | move (tile : Int) (s : State) : Reachable s → Reachable (move tile s).2

/-- The board holds each value of `0, ..., d*d - 1` in exactly one of its `d*d` cells. -/
def IsPermutation (d : Int) (b : Int → Int → Int) : Prop :=
  (∀ i j, inBoard d i j → 0 ≤ b i j ∧ b i j < d * d) ∧
  (∀ v, 0 ≤ v → v < d * d →
    ∃ i j, inBoard d i j ∧ b i j = v ∧
      ∀ x y, inBoard d x y → b x y = v → x = i ∧ y = j)

/-- The canonical solved board: `i*d + j + 1` at cell `(i, j)`, and `0` at the last cell. -/
def IsSolved (d : Int) (b : Int → Int → Int) : Prop :=
  ∀ i j, inBoard d i j → b i j = if i = d - 1 ∧ j = d - 1 then 0 else i * d + j + 1

/-- The rows of the board, top to bottom, each read left to right. -/
def rows (s : State) : List (List Int) :=
  (intRange s.d).map (fun i => (intRange s.d).map (fun j => s.board i j))

/-- Globals before `init()` runs, with `d = 3` and arrays that still hold other values. -/
def start3 : State :=
  { d := 3, board := fun _ _ => 7, sorted_board := fun _ _ => -1,
    empty_column := 0, empty_row := 0, out := "" }

/-- Globals before `init()` runs, with `d = 4`. -/
def start4 : State :=
  { d := 4, board := fun _ _ => 7, sorted_board := fun _ _ => -1,
    empty_column := 0, empty_row := 0, out := "" }

/-- The state after `init()` with `d = 3`: rows `[8,7,6]`, `[5,4,3]`, `[2,1,0]`. -/
def fresh3 : State := init start3

/-- The state after `init()` with `d = 4`. -/
def fresh4 : State := init start4

/-! ## Auxiliary definitions for the proofs -/

/-- The globals after a successful `move(tile)` that found the tile in cell `(i, j)`. -/
def moved (s : State) (tile i j : Int) : State :=
  { s with
    board := setCell (setCell s.board s.empty_column s.empty_row tile) i j 0
    empty_column := i
    empty_row := j }

/-- Every cell holds a value of `0, ..., d*d - 1`, no two cells hold the same value, and
every value is held by some cell. -/
def Bij (d : Int) (b : Int → Int → Int) : Prop :=
  (∀ i j, inBoard d i j → 0 ≤ b i j ∧ b i j < d * d) ∧
  (∀ i j x y, inBoard d i j → inBoard d x y → b i j = b x y → i = x ∧ j = y) ∧
  (∀ v, 0 ≤ v → v < d * d → ∃ i j, inBoard d i j ∧ b i j = v)

/-- The transposition of the cells `(p, q)` and `(r, t)`. -/
def swapCell (p q r t : Int) (c : Int × Int) : Int × Int :=
  if c.1 = r ∧ c.2 = t then (p, q) else if c.1 = p ∧ c.2 = q then (r, t) else c

/-- What holds in every state the program can reach (see `Reachable.inv`). -/
structure Inv (s : State) : Prop where
  /-- The cached blank position is on the board. -/
  blank_in : inBoard s.d s.empty_column s.empty_row
  /-- The cell at the cached blank position holds `0`. -/
  blank_zero : s.board s.empty_column s.empty_row = 0
  /-- The board is a permutation of `0, ..., d*d - 1`. -/
  bij : Bij s.d s.board
  /-- The array `sorted_board` is the canonical solved board. -/
  sorted : IsSolved s.d s.sorted_board

/-! ## Reference procedures that follow the specification -/

/-- No two cells of the `d x d` board hold the same value. -/
def Distinct (d : Int) (b : Int → Int → Int) : Prop :=
  ∀ i j x y, inBoard d i j → inBoard d x y → b i j = b x y → i = x ∧ j = y

/-- The first cell, in row-major order, that holds `tile`. -/
def firstCell (s : State) (tile : Int) : Option (Int × Int) :=
  (intRange s.d).findSome? (fun i =>
    (intRange s.d).findSome? (fun j => if s.board i j = tile then some (i, j) else none))

/-- The reference procedure of the specification for a move: find the first cell in
row-major order that holds `tile`; if there is none, fail; otherwise succeed and exchange
tile and blank if and only if that cell is adjacent to the blank. -/
def moveRef (tile : Int) (s : State) : Bool × State :=
  match firstCell s tile with
  | none => (false, s)
  | some (i, j) =>
    if adjacent i j s.empty_column s.empty_row then (true, moved s tile i j) else (false, s)

/-- The tile labels `t` of `0, ..., d*d - 1` for which `move(t)` returns `true`. -/
def legalTiles (s : State) : List Int :=
  (intRange (s.d * s.d)).filter (fun t => (move t s).1)

/-- The cells of the board that are 4-directionally adjacent to the blank position: the cell
above, below, to the left and to the right, when on the board. -/
def neighbours (s : State) : List (Int × Int) :=
  [(s.empty_column - 1, s.empty_row), (s.empty_column + 1, s.empty_row),
   (s.empty_column, s.empty_row - 1), (s.empty_column, s.empty_row + 1)].filter
    (fun c => decide (inBoard s.d c.1 c.2))

/-- A coordinate on the border of the board: `0` or `d - 1`. -/
def onBorder (d x : Int) : Prop := x = 0 ∨ x = d - 1

instance (d x : Int) : Decidable (onBorder d x) := by
  unfold onBorder; infer_instance

/-! ## `draw` -/

/-- What `printf("%2i ", v)` writes: `v` in decimal, padded on the left with blanks to a
width of at least two characters, and a blank. -/
def printf_2i (v : Int) : String :=
  (if (toString v).length < 2 then " " ++ toString v else toString v) ++ " "

/-- What the body of the inner loop of `draw` (lines 211-218) writes at cell `(i, j)`. -/
def drawCell (s : State) (i j : Int) : String :=
  if i = s.empty_column ∧ j = s.empty_row then " _ " else printf_2i (s.board i j)

/-- The body of the outer loop of `draw` (lines 207-221) at row `i`: the cells of the row,
left to right, then a newline. -/
def drawRow (s : State) (out : String) (i : Int) : String :=
  (intRange s.d).foldl (fun o j => o ++ drawCell s i j) out ++ "\n"

/-- The function `draw` (lines 203-223). -/
def draw (s : State) : State :=
  { s with out := (intRange s.d).foldl (drawRow s) s.out }

/-- The texts of a list, one after the other. -/
def joinAll : List String → String
  | [] => ""
  | x :: xs => x ++ joinAll xs

/-- The rendering the specification asks for: the rows top to bottom, each row left to right
followed by a newline, the cell that holds `0` as the glyph `" _ "` and every other cell as
its number. -/
def render (s : State) : String :=
  joinAll ((intRange s.d).map (fun i =>
    joinAll ((intRange s.d).map (fun j =>
      if s.board i j = 0 then " _ " else printf_2i (s.board i j))) ++ "\n"))

/-! ## `main` -/

/-- The call `printf(text)` with a constant text. -/
def print (s : State) (text : String) : State :=
  { s with out := s.out ++ text }

/-- The function `clear` (lines 144-148): two ANSI escape sequences. -/
def clear (s : State) : State :=
  print (print s "\x1b[2J") "\x1b[0;0H"

/-- The function `greet` (lines 153-158); the pause of `usleep` is not modelled. -/
def greet (s : State) : State :=
  print (clear s) "WELCOME TO GAME OF FIFTEEN\n"

/-- The calls of puzzle functions that `main` makes, for the record of a run. -/
inductive Call where
  | greet
  | init
  | draw
  | won
  | move (tile : Int)
  deriving DecidableEq

/-- A run of `main`: the globals and output, what was written to `log.txt`, the calls made
so far in order, and the exit status (`none` while `main` waits for more input). -/
structure Run where
  /-- The globals and standard output. -/
  state : State
  /-- The text written to the log file. -/
  log : String
  /-- The calls of puzzle functions so far. -/
  calls : List Call
  /-- The value `main` returned, if it has returned. -/
  exit : Option Int

/-- The logging loop of `main` (lines 88-99): each row with its values separated by `|`. -/
def logBoard (s : State) (log : String) : String :=
  (intRange s.d).foldl (fun l i =>
    (intRange s.d).foldl (fun l j =>
      (l ++ toString (s.board i j)) ++ (if j < s.d - 1 then "|" else "")) l ++ "\n") log

/-- The first half of an iteration of the loop of `main` (lines 81-107): clear, draw, log,
and the call of `won` together with its result. -/
def turnStart (r : Run) : Bool × Run :=
  let s1 := draw (clear r.state)
  let w := won s1
  (w.1, { state := w.2, log := logBoard s1 r.log, calls := r.calls ++ [Call.draw, Call.won],
          exit := none })

/-- The loop `while (true)` of `main` (lines 79-132), run on the integers that the successive
calls of `get_int` return.  When they run out the run stays without an exit status.  The
pauses of `usleep` are not modelled. -/
def gameLoop : List Int → Run → Run
  | [], r =>
    let t := turnStart r
    if t.1 then { t.2 with state := print t.2.state "ftw!\n", exit := some 0 }
    else { t.2 with state := print t.2.state "Tile to move: " }
  | tile :: rest, r =>
    let t := turnStart r
    if t.1 then { t.2 with state := print t.2.state "ftw!\n", exit := some 0 }
    else
      let s2 := print t.2.state "Tile to move: "
      if tile = 0 then { t.2 with state := s2, exit := some 0 }
      else
        let m := move tile s2
        gameLoop rest
          { state := if m.1 then m.2 else print m.2 "\nIllegal move.\n"
            log := (t.2.log ++ toString tile) ++ "\n"
            calls := t.2.calls ++ [Call.move tile]
            exit := none }

/-- The function `main` (lines 47-139), given `argc`, the integer `arg` that
`atoi(argv[1])` returns, whether `fopen` succeeds in opening `log.txt`, and the integers the
successive calls of `get_int` return. -/
def main (argc arg : Int) (fileOpens : Bool) (inputs : List Int) (s : State) : Run :=
  if argc ≠ 2 then
    { state := print s "Usage: fifteen d\n", log := "", calls := [], exit := some 1 }
  else if arg < DIM_MIN ∨ arg > DIM_MAX then
    { state := print { s with d := arg } "Board must be between 3 x 3 and 9 x 9, inclusive.\n"
      log := "", calls := [], exit := some 2 }
  else if fileOpens = false then
    { state := { s with d := arg }, log := "", calls := [], exit := some 3 }
  else
    gameLoop inputs
      { state := init (greet { s with d := arg }), log := ""
        calls := [Call.greet, Call.init], exit := none }

/-! ## Playing a sequence of moves -/

/-- The calls `move(t)` for the labels of the list in turn, as long as each returns `true`:
`some` of the final state when all of them succeed, `none` as soon as one fails. -/
def play : List Int → State → Option State
  | [], s => some s
  | t :: ts, s => if (move t s).1 then play ts (move t s).2 else none

/-! ## A packed board, to replay long sequences of moves

The cells of a board in row-major order, each below `128`, are the digits in base `128` of
one natural number.  One move is then a lookup of at most four digits and one addition and
subtraction. -/

/-- The number whose base-`128` digits, lowest first, are the entries of the list. -/
def pack : List Nat → Nat
  | [] => 0
  | c :: cs => c + 128 * pack cs

/-- The digit number `k` in base `128`. -/
def cellAt (n k : Nat) : Nat := n / 128 ^ k % 128

/-- A packed board and the row and column of its blank. -/
structure Packed where
  /-- The cells in row-major order, packed. -/
  cells : Nat
  /-- The row of the blank. -/
  bi : Nat
  /-- The column of the blank. -/
  bj : Nat

/-- The cells of the `d x d` board above, below, left and right of `(bi, bj)`. -/
def neighbourCells (d bi bj : Nat) : List (Nat × Nat) :=
  (if 0 < bi then [(bi - 1, bj)] else []) ++
  (if bi + 1 < d then [(bi + 1, bj)] else []) ++
  (if 0 < bj then [(bi, bj - 1)] else []) ++
  (if bj + 1 < d then [(bi, bj + 1)] else [])

/-- One move on the packed board: the tile `t`, when a cell next to the blank holds it, is
exchanged with the blank. -/
def fastMove (d : Nat) (t : Nat) (g : Packed) : Option Packed :=
  match (neighbourCells d g.bi g.bj).find? (fun c => cellAt g.cells (c.1 * d + c.2) == t) with
  | none => none
  | some c =>
    some { cells := g.cells + t * 128 ^ (g.bi * d + g.bj) - t * 128 ^ (c.1 * d + c.2)
           bi := c.1
           bj := c.2 }

/-- A sequence of moves on the packed board. -/
def fastPlay (d : Nat) : List Nat → Packed → Option Packed
  | [], g => some g
  | t :: ts, g =>
    match fastMove d t g with
    | none => none
    | some g1 => fastPlay d ts g1

/-- The cells of the board that `init()` builds, in row-major order. -/
def startCells (d : Nat) : List Nat :=
  (List.range (d * d)).map (fun k =>
    if d % 2 = 0 ∧ k + 3 = d * d then 1
    else if d % 2 = 0 ∧ k + 2 = d * d then 2
    else d * d - 1 - k)

/-- The cells of the solved board, in row-major order. -/
def solvedCells (d : Nat) : List Nat :=
  (List.range (d * d)).map (fun k => if k + 1 = d * d then 0 else k + 1)

/-- Does the sequence of tile labels lead from the board of `init()` to the solved board,
every move being legal? -/
def solves (d : Nat) (ts : List Nat) : Bool :=
  match fastPlay d ts { cells := pack (startCells d), bi := d - 1, bj := d - 1 } with
  | none => false
  | some g => g.cells == pack (solvedCells d)

/-- The packed board `g` stands for the board and blank position of the state `s`. -/
def Rep (d : Nat) (s : State) (g : Packed) : Prop :=
  s.d = d ∧ s.empty_column = g.bi ∧ s.empty_row = g.bj ∧ g.bi < d ∧ g.bj < d ∧
  ∃ cells : List Nat, g.cells = pack cells ∧ cells.length = d * d ∧
    (∀ c ∈ cells, c < 128) ∧
    ∀ i j : Nat, i < d → j < d → s.board i j = ((cells.getD (i * d + j) 0 : Nat) : Int)

/-- Reads decimal numbers separated by single blanks. -/
def parseAux : List Char → Nat → List Nat
  | [], acc => [acc]
  | c :: cs, acc =>
    if c = ' ' then acc :: parseAux cs 0 else parseAux cs (acc * 10 + (c.toNat - 48))

/-- The numbers written in the lines of a text, each line holding decimal numbers separated
by single blanks. -/
def parseLabels : List String → List Nat
  | [] => []
  | l :: ls => parseAux l.toList 0 ++ parseLabels ls

/-- A sequence of 32 tile labels that solves the board of `init()` for `d = 3`. -/
def solution3 : List Nat :=
  parseLabels
    ["3 4 1 2 5 1 7 8 1 7 2 3 4 2 8 6 2 8 3 4 8 3 6 2 3 6 4 5 7 4 5 8"]

/-- A sequence of 128 tile labels that solves the board of `init()` for `d = 4`. -/
def solution4 : List Nat :=
  parseLabels
    ["4 5 6 1 3 7 11 10 1 11 10 1 14 15 1 10 11 6 2 3 6 14 9 2 14 9 2 13 15 2 9 14 3 4 5 3 4 6",
     "14 9 13 4 3 8 12 15 4 3 8 12 15 4 3 8 6 5 12 6 5 14 9 5 8 13 5 11 10 5 11 8 6 15 13 6 8 11",
     "6 8 14 9 7 10 11 7 9 14 7 9 14 12 15 13 8 7 13 15 12 14 9 11 10 9 11 13 14 11 13 10 9 13",
     "11 14 15 12 14 11 10 15 11 14 12 11 15 10 14 15 11 12"]

/-- A sequence of 234 tile labels that solves the board of `init()` for `d = 5`. -/
def solution5 : List Nat :=
  parseLabels
    ["5 6 1 2 7 1 11 12 1 8 13 1 17 18 1 14 19 1 23 24 1 19 9 13 8 11 2 7 11 17 12 2 17 12 2 16",
     "18 2 14 23 2 22 24 2 23 8 3 4 13 9 8 3 12 14 3 23 22 3 16 18 21 24 3 16 14 11 4 12 11 4 7",
     "17 6 5 17 6 5 10 18 5 4 14 16 21 5 4 10 18 15 20 24 5 4 15 20 24 5 4 15 10 6 7 14 6 10 16",
     "6 11 23 6 21 22 6 8 19 6 8 23 11 10 7 14 10 7 16 21 7 11 23 7 22 8 7 23 9 19 23 22 11 10",
     "14 16 10 9 22 11 21 10 9 14 16 17 18 20 24 15 10 9 20 24 15 10 9 20 14 22 19 23 11 19 12",
     "16 22 21 19 12 16 13 23 16 13 22 21 13 22 21 17 14 20 19 13 20 19 15 24 19 14 18 19 24 15",
     "14 18 17 21 23 16 22 23 21 20 23 22 16 21 20 17 18 23 17 20 22 17 23 18 20 23 18 20 19 24",
     "20 19 24"]

/-- A sequence of 498 tile labels that solves the board of `init()` for `d = 6`. -/
def solution6 : List Nat :=
  parseLabels
    ["6 7 8 1 3 9 15 14 1 15 14 1 20 21 1 16 22 1 27 28 1 23 29 1 34 35 1 29 17 11 10 14 15 8 2",
     "3 8 20 13 2 20 13 2 19 21 2 16 27 2 26 28 2 23 34 2 33 35 2 34 22 14 15 13 20 3 8 20 16 19",
     "3 16 19 26 21 3 26 21 3 25 28 3 23 33 3 32 35 3 33 27 13 15 4 5 10 11 14 4 15 13 4 22 27 4",
     "21 23 4 33 32 4 25 28 31 35 4 25 23 19 20 9 5 15 13 5 9 20 5 21 19 5 16 7 6 8 7 26 12 6 26",
     "12 6 18 28 6 5 23 25 31 6 5 18 28 24 30 35 6 5 24 30 35 6 5 24 18 12 7 20 16 7 12 23 7 21",
     "19 7 25 33 7 22 27 7 32 34 7 17 29 7 17 27 13 15 9 16 20 8 26 12 8 20 21 8 23 25 8 19 22 8",
     "33 32 8 13 27 8 34 17 8 27 15 9 10 11 14 15 9 22 13 9 27 34 9 33 32 31 17 9 33 13 22 10 16",
     "22 10 27 13 10 19 32 10 33 31 10 25 18 24 17 10 25 18 28 12 26 20 21 22 16 11 14 27 11 16",
     "19 11 13 33 11 32 18 11 31 25 24 30 12 28 11 24 30 12 35 17 12 11 28 35 17 12 11 28 24 31",
     "33 13 27 15 13 34 29 13 15 14 16 27 14 15 34 14 32 33 25 29 14 32 15 34 32 15 33 25 15 33",
     "25 18 31 30 29 15 18 19 27 16 34 25 16 27 19 16 33 18 16 31 30 16 31 30 23 24 28 29 16 31",
     "18 33 30 23 31 18 23 31 24 28 18 24 28 26 35 18 29 17 18 35 26 28 31 19 27 30 19 23 33 19",
     "25 32 19 25 30 27 22 21 20 26 28 20 21 31 20 29 24 20 23 33 20 23 33 30 25 20 30 22 31 21",
     "29 33 21 31 22 21 23 30 21 22 31 23 22 31 23 29 33 24 30 22 29 23 31 29 23 33 26 28 35 30",
     "24 23 33 26 28 35 30 24 23 33 29 31 27 25 32 34 25 32 31 27 32 31 34 25 31 32 27 34 32 27",
     "26 29 34 26 27 32 26 34 33 28 29 33 34 27 33 34 28 29 35"]

/-- A sequence of 884 tile labels that solves the board of `init()` for `d = 7`. -/
def solution7 : List Nat :=
  parseLabels
    ["7 8 1 2 9 1 15 16 1 10 17 1 23 24 1 18 25 1 31 32 1 26 33 1 39 40 1 34 41 1 47 48 1 41 27",
     "20 13 12 11 17 10 15 2 9 15 23 16 2 23 16 2 22 24 2 18 31 2 30 32 2 26 39 2 38 40 2 34 47",
     "2 46 48 2 47 33 19 11 17 10 3 4 10 25 31 3 25 31 39 26 3 39 26 34 38 3 34 38 46 40 3 46 40",
     "3 45 48 3 40 38 26 31 25 4 10 25 31 39 4 31 39 26 34 4 26 34 38 46 4 38 46 40 45 4 32 37",
     "44 48 4 32 38 26 31 39 17 5 6 12 13 11 5 17 34 5 19 46 5 31 26 5 40 38 5 30 37 5 32 44 5",
     "29 36 43 48 5 29 37 18 16 15 10 25 6 17 34 6 25 39 6 31 26 6 15 23 8 7 9 8 7 14 22 7 23 16",
     "6 30 18 24 7 6 24 37 36 7 6 24 37 36 29 43 7 6 21 28 35 42 48 7 6 35 42 48 7 6 35 21 24 23",
     "8 10 16 8 23 37 8 15 30 8 36 18 8 26 40 8 32 38 8 46 33 8 45 47 8 27 41 8 27 33 19 34 17",
     "25 39 16 10 9 14 23 9 10 15 9 37 36 9 30 26 9 18 32 9 40 46 9 38 45 9 19 33 9 47 27 9 33",
     "34 17 31 26 30 37 10 15 37 18 36 10 18 36 10 24 32 10 40 38 10 29 45 10 19 47 10 44 27 10",
     "47 46 17 11 20 34 11 17 46 11 33 47 11 19 44 11 19 44 29 45 43 27 11 29 38 30 16 39 25 12",
     "13 31 12 25 26 12 17 46 12 16 30 12 44 38 12 40 45 12 29 43 12 32 21 35 27 12 32 45 36 37",
     "39 26 25 13 31 17 13 25 16 13 46 44 13 30 40 13 30 40 37 18 23 14 15 23 14 22 24 14 18 36",
     "13 29 45 21 14 13 21 32 35 14 13 24 28 42 48 27 14 13 42 48 27 14 13 42 24 18 23 15 22 23",
     "15 39 36 15 18 21 15 37 29 15 32 45 15 30 38 15 43 19 15 33 47 15 33 47 34 41 15 34 44 46",
     "40 16 25 40 46 38 16 46 38 44 47 16 44 47 16 33 34 16 47 38 17 20 38 17 46 44 17 47 33 17",
     "30 43 19 34 17 30 43 32 21 18 37 21 18 24 45 18 32 19 18 35 34 18 19 32 35 19 32 35 24 45",
     "42 34 19 24 21 29 44 46 20 38 47 20 46 43 20 33 30 32 35 20 32 35 24 21 20 44 29 37 45 42",
     "21 20 42 28 48 27 34 21 20 42 28 48 27 34 21 20 48 45 39 22 23 39 22 36 37 22 45 28 22 29",
     "44 22 42 24 22 32 35 22 32 35 33 30 22 33 30 47 41 22 47 46 40 25 26 37 36 23 39 45 23 36",
     "29 23 28 42 23 44 35 23 24 32 23 30 33 23 30 33 46 47 23 46 33 24 32 30 24 33 46 24 33 35",
     "37 26 25 40 43 25 26 37 25 46 35 25 44 32 30 33 25 44 37 26 46 37 26 29 32 26 44 30 26 28",
     "42 48 33 26 28 42 48 33 34 27 33 28 42 48 45 33 28 34 27 28 33 45 48 44 29 46 37 29 30 35",
     "29 43 47 29 43 47 38 41 29 38 47 30 35 43 30 47 38 30 47 37 40 31 41 38 31 40 37 31 40 37",
     "46 35 43 47 31 43 44 32 35 44 32 42 47 32 42 47 34 33 45 48 47 34 33 47 34 35 36 39 48 34",
     "47 45 34 47 35 36 39 48 47 35 45 34 35 47 48 39 44 42 36 44 42 46 37 40 43 36 46 37 40 41",
     "38 43 36 40 41 38 43 36 38 41 37 46 44 42 46 44 40 38 41 37 44 40 38 41 37 44 41 38 42 45",
     "39 46 40 41 38 42 45 40 41 45 42 38 45 41 46 39 40 46 41 42 46 41 39 40 41 39 42 46 39 42",
     "40 41 47 48 41 47 42 40 47 41 48 42 41 48"]

/-- A sequence of 1420 tile labels that solves the board of `init()` for `d = 8`. -/
def solution8 : List Nat :=
  parseLabels
    ["8 9 10 1 3 11 19 18 1 19 18 1 26 27 1 20 28 1 35 36 1 29 37 1 44 45 1 38 46 1 53 54 1 47",
     "55 1 62 63 1 55 39 31 23 15 14 13 12 18 19 10 2 3 10 26 17 2 26 17 2 25 27 2 20 35 2 34 36",
     "2 29 44 2 43 45 2 38 53 2 52 54 2 47 62 2 61 63 2 62 46 30 22 13 12 18 19 17 26 3 10 26 20",
     "25 3 20 25 34 27 3 34 27 3 33 36 3 29 43 3 42 45 3 38 52 3 51 54 3 47 61 3 60 63 3 61 53",
     "37 21 18 19 4 5 19 18 28 4 18 28 21 44 4 21 44 37 52 4 37 52 53 47 4 53 47 61 60 4 51 54",
     "59 63 4 51 53 37 21 18 5 19 28 44 18 5 44 18 52 21 5 52 21 47 37 5 47 37 61 53 5 38 54 5",
     "51 59 5 45 50 58 63 5 45 54 43 35 17 44 18 12 6 7 14 15 13 6 12 21 6 22 37 6 52 47 6 61 38",
     "6 35 43 6 51 54 6 42 50 6 45 58 6 41 49 57 63 6 41 50 29 27 25 26 10 8 9 20 8 10 11 19 28",
     "7 12 21 7 28 18 7 52 47 7 44 17 7 35 43 7 25 34 8 26 34 27 7 42 29 7 33 8 16 24 32 36 8 32",
     "36 40 49 8 7 50 41 57 8 7 40 49 48 56 63 8 7 48 56 63 8 7 48 40 32 16 26 10 9 20 10 9 11",
     "34 9 26 27 9 17 25 9 33 42 9 35 43 9 29 51 9 61 38 9 54 53 9 30 46 9 60 62 9 39 55 9 39 46",
     "37 22 21 52 44 25 17 26 10 24 27 10 26 33 10 16 42 10 35 29 10 50 51 10 61 54 10 45 53 10",
     "30 60 10 59 62 10 46 39 10 46 60 38 47 44 25 17 33 26 11 34 26 35 16 11 35 16 11 42 50 11",
     "29 61 11 51 45 11 54 30 11 53 59 11 38 60 11 62 46 11 60 47 44 25 52 12 14 15 13 21 12 13",
     "21 23 22 12 25 44 12 37 47 12 30 38 12 60 62 12 53 59 58 46 12 53 38 43 44 25 13 52 25 13",
     "37 30 13 44 43 13 60 38 13 54 59 13 53 58 13 45 41 57 46 13 45 59 61 33 17 25 52 14 28 52",
     "14 37 44 14 25 43 14 60 54 14 33 61 14 53 59 14 51 41 14 45 57 14 32 40 48 46 14 32 41 29",
     "16 26 19 18 52 28 15 21 37 15 28 25 15 44 60 15 43 33 15 54 53 15 61 51 15 59 45 41 29 16",
     "42 50 16 15 41 29 40 16 15 40 32 48 16 15 36 49 56 63 46 16 15 56 63 46 16 15 56 36 50 42",
     "51 17 33 61 17 41 59 17 54 53 17 45 38 17 30 47 17 62 39 17 31 55 17 31 47 60 44 43 61 33",
     "18 52 33 54 41 18 54 41 18 59 45 18 53 30 18 38 62 18 60 47 18 39 31 18 47 44 43 61 41 54",
     "26 19 52 26 59 51 19 59 51 19 40 45 19 53 38 19 29 62 19 60 39 19 58 31 19 39 30 41 54 51",
     "59 35 24 20 34 24 20 27 42 20 35 40 20 50 45 20 53 29 20 32 62 20 60 58 20 57 31 20 58 38",
     "51 33 25 28 21 37 61 21 28 54 21 43 41 21 33 51 21 30 38 21 29 60 21 58 57 21 32 62 48 31",
     "21 32 58 38 44 22 55 47 22 44 39 22 44 39 38 57 22 38 57 58 32 22 58 32 62 48 22 62 48 45",
     "36 56 31 22 45 53 60 29 30 41 23 55 39 57 41 23 57 41 32 30 23 32 30 48 29 23 51 59 40 35",
     "24 52 35 60 50 24 60 50 23 29 53 36 24 23 36 45 56 24 23 42 49 63 46 31 24 23 63 46 31 24",
     "23 63 42 60 50 40 59 25 54 33 25 51 32 25 43 57 25 30 41 25 55 39 25 44 47 25 39 61 57 43",
     "51 59 26 54 59 26 29 32 26 51 30 26 48 41 26 55 44 26 38 47 26 44 43 30 51 29 40 50 27 49",
     "60 27 50 36 27 42 45 27 32 53 27 56 62 27 41 58 27 41 58 38 47 27 38 48 29 51 30 28 33 30",
     "28 43 55 28 51 29 28 47 48 28 53 58 41 38 28 53 29 40 58 29 53 41 29 32 56 62 38 29 32 58",
     "54 59 30 51 40 30 59 54 30 53 58 30 36 56 30 32 62 30 42 45 63 38 30 42 32 62 42 32 45 63",
     "32 45 63 60 46 32 38 31 32 46 49 50 56 36 53 40 43 33 37 57 61 55 33 61 55 33 44 39 33 55",
     "57 37 51 59 54 35 52 34 50 56 34 52 36 34 60 63 34 53 62 34 45 42 34 58 41 34 58 41 47 48",
     "34 47 48 44 39 34 44 43 40 62 35 54 62 35 41 48 35 40 43 35 47 44 35 43 40 41 53 36 54 53",
     "36 45 48 36 41 47 36 58 44 36 47 62 59 51 37 57 61 37 51 40 37 39 43 37 62 47 37 62 47 41",
     "58 37 41 58 45 48 42 44 37 42 44 38 63 60 52 54 53 59 40 47 39 43 62 41 58 40 59 45 40 39",
     "41 58 42 40 39 59 45 53 48 44 40 39 44 52 60 40 39 44 52 60 56 49 46 63 40 39 60 56 49 46",
     "63 40 39 60 44 42 58 41 43 62 41 43 62 61 55 41 43 58 42 52 59 62 58 42 62 58 61 43 42 61",
     "43 51 47 45 58 62 61 43 62 61 52 44 56 59 61 52 44 61 53 58 45 62 52 45 58 53 45 58 53 48",
     "59 56 61 45 56 49 46 63 60 46 49 61 46 49 54 59 48 53 62 47 51 52 58 62 47 58 62 56 53 47",
     "56 53 61 48 59 54 48 59 47 61 59 47 54 50 63 60 49 48 47 54 50 63 60 49 48 47 49 60 63 49",
     "54 50 49 54 50 59 61 49 59 61 53 56 49 53 56 62 58 49 62 58 52 55 57 51 49 52 55 49 51 57",
     "49 55 58 56 61 50 54 59 53 61 50 53 61 62 56 50 62 56 52 51 55 58 50 52 51 55 58 50 55 51",
     "56 61 59 54 53 62 61 59 62 61 52 56 59 52 56 55 51 59 52 56 61 53 60 63 54 60 53 62 60 53",
     "62 61 56 60 61 56 55 52 60 61 56 55 61 56 53 62 55 53 56 61 53 56 62 55 56 62 55 54 63 56",
     "54 55 62 54 55 63"]

/-- A sequence of 2114 tile labels that solves the board of `init()` for `d = 9`. -/
def solution9 : List Nat :=
  parseLabels
    ["9 10 1 2 11 1 19 20 1 12 21 1 29 30 1 22 31 1 39 40 1 32 41 1 49 50 1 42 51 1 59 60 1 52",
     "61 1 69 70 1 62 71 1 79 80 1 71 53 44 35 26 17 16 15 14 13 21 12 19 2 11 19 29 20 2 29 20",
     "2 28 30 2 22 39 2 38 40 2 32 49 2 48 50 2 42 59 2 58 60 2 52 69 2 68 70 2 62 79 2 78 80 2",
     "79 61 43 34 25 15 14 13 21 12 3 4 12 31 39 3 31 39 49 32 3 49 32 42 48 3 42 48 58 50 3 58",
     "50 3 57 60 3 52 68 3 67 70 3 62 78 3 77 80 3 78 69 51 33 24 13 21 39 31 4 12 31 32 49 4 32",
     "49 48 42 4 48 42 50 58 4 50 58 52 57 4 52 57 67 60 4 67 60 4 66 70 4 62 77 4 76 80 4 77 68",
     "59 41 23 39 5 6 21 13 39 5 13 39 24 23 5 24 23 33 41 5 33 41 51 59 5 51 59 69 68 5 60 62 5",
     "77 76 5 66 70 75 80 5 66 62 57 58 42 49 13 6 21 39 23 24 6 23 24 41 33 6 41 33 59 51 6 59",
     "51 69 60 6 58 57 6 77 62 6 67 70 6 66 75 6 56 65 74 80 6 56 70 52 50 48 32 13 23 24 14 7 8",
     "16 17 15 7 14 33 7 25 51 7 41 59 7 69 58 7 42 57 7 77 67 7 50 52 7 66 70 7 47 65 7 56 74 7",
     "55 64 73 80 7 55 65 40 38 22 20 29 10 9 11 10 9 18 28 9 10 19 12 31 21 39 8 14 33 8 39 24",
     "8 41 59 8 23 49 8 42 57 8 32 48 8 50 52 8 22 30 9 20 30 38 8 47 40 8 37 9 27 36 45 46 9 45",
     "46 54 64 9 8 65 55 73 9 8 54 64 63 72 80 9 8 63 72 80 9 8 63 54 45 27 20 10 29 30 10 20 38",
     "10 48 22 10 37 47 10 50 52 10 40 66 10 77 67 10 70 62 10 60 68 10 76 78 10 61 79 10 61 79",
     "53 71 10 53 43 34 51 25 33 14 39 24 21 31 12 19 11 18 29 11 19 30 11 20 48 11 13 22 11 37",
     "50 11 32 52 11 40 77 11 57 67 11 70 60 11 58 68 11 76 79 11 34 43 11 61 53 11 43 51 25 33",
     "14 41 23 49 22 12 31 22 52 32 12 52 32 57 40 12 57 40 70 77 12 70 77 12 66 60 12 58 76 12",
     "62 79 12 34 61 12 78 53 12 61 68 69 59 42 40 57 37 13 52 37 70 50 13 70 50 66 47 13 66 47",
     "13 65 60 13 58 62 13 56 79 13 34 78 13 75 53 13 78 76 67 59 33 14 42 33 14 25 69 14 59 67",
     "14 68 76 14 62 34 14 78 75 14 56 79 74 53 14 56 34 77 57 40 33 42 15 26 25 15 42 59 15 69",
     "68 15 67 62 15 76 78 15 77 34 15 75 56 15 79 74 15 79 74 60 55 73 53 15 60 58 47 50 37 31",
     "22 21 24 39 16 17 41 16 39 23 16 42 59 16 49 33 16 67 62 16 40 57 16 77 34 16 50 47 16 74",
     "58 16 65 55 16 60 73 16 45 54 63 53 16 45 55 66 70 52 20 29 18 19 29 18 28 48 18 29 30 22",
     "21 24 23 39 17 41 42 17 39 49 17 59 67 17 33 40 17 62 77 17 57 50 17 34 74 17 47 65 17 47",
     "65 70 38 18 52 38 66 27 18 66 27 17 60 55 54 18 17 54 45 63 18 17 46 64 72 80 53 18 17 72",
     "80 53 18 17 72 46 66 52 29 30 19 28 30 19 22 20 19 29 38 19 31 37 19 27 70 19 50 65 19 60",
     "47 19 34 74 19 58 75 19 76 78 19 56 61 19 51 43 19 51 43 44 71 19 44 68 69 67 59 33 40 32",
     "37 31 20 21 31 20 27 50 20 37 65 20 60 34 20 57 74 20 58 76 20 77 78 20 56 43 20 69 68 20",
     "51 44 20 68 67 59 33 40 32 65 37 27 21 31 27 60 50 21 60 50 21 70 34 21 57 58 21 47 76 21",
     "77 56 21 75 43 21 69 51 21 61 44 21 51 78 62 32 65 37 50 60 29 22 31 29 70 38 22 70 38 22",
     "52 34 22 57 47 22 54 76 22 77 75 22 55 43 22 69 61 22 79 44 22 61 56 74 37 23 49 65 32 37",
     "23 32 37 62 74 23 62 74 78 56 23 75 69 23 61 79 23 55 43 73 44 23 55 69 58 50 24 49 32 62",
     "50 24 62 50 75 58 24 75 58 61 69 24 77 43 24 55 73 24 76 45 63 44 24 76 43 77 61 78 59 25",
     "35 67 25 59 56 25 68 51 25 69 79 25 69 79 55 73 25 55 73 43 76 25 43 76 45 63 25 45 63 66",
     "46 72 44 25 66 54 57 38 60 27 49 62 75 58 74 33 26 35 59 26 33 56 26 68 79 73 78 26 73 78",
     "76 61 26 74 58 47 27 60 38 27 77 26 61 63 54 57 27 52 34 27 26 54 57 46 27 26 46 66 72 27",
     "26 36 64 80 53 44 27 26 80 53 44 27 26 80 36 34 70 31 28 30 31 28 29 38 28 70 52 28 60 77",
     "28 46 54 28 47 61 28 57 63 28 74 76 28 43 55 28 78 69 28 78 69 79 51 28 79 51 67 71 28 67",
     "68 33 40 39 65 32 62 49 38 29 70 60 29 38 77 29 46 47 29 75 61 29 57 74 29 58 76 29 43 69",
     "29 73 51 29 78 79 29 68 67 29 68 51 56 37 32 62 49 77 38 70 30 31 60 30 70 46 30 52 47 30",
     "75 57 30 54 74 30 58 43 30 63 69 30 73 78 30 55 79 30 51 68 30 51 78 76 50 49 77 38 46 70",
     "31 60 52 31 70 75 31 47 54 31 57 58 31 74 63 31 43 73 31 69 55 31 76 78 31 79 51 31 78 50",
     "37 32 49 37 32 56 50 32 73 76 32 78 79 32 69 55 45 51 32 69 78 50 33 67 68 33 50 79 33 50",
     "79 78 69 33 78 69 55 45 33 55 45 63 66 72 51 33 72 36 34 66 36 34 80 51 34 36 74 43 76 73",
     "56 40 35 59 67 35 40 79 35 68 50 35 69 78 35 69 78 45 55 35 45 55 63 72 35 63 72 74 66 80",
     "36 35 74 66 80 64 53 44 51 36 35 80 64 53 44 51 36 35 53 54 43 76 73 56 37 49 79 37 55 78",
     "37 40 68 37 69 50 37 67 71 37 67 68 39 79 49 61 38 77 61 38 56 55 38 49 40 38 78 69 38 39",
     "68 38 50 67 38 50 39 78 69 45 67 39 78 40 49 69 40 78 45 40 55 72 63 67 40 55 69 61 62 65",
     "41 42 79 41 65 49 41 68 78 41 61 69 41 45 55 41 72 63 41 72 63 73 66 74 67 41 73 56 77 62",
     "49 65 42 79 68 42 65 61 42 78 45 42 69 63 42 55 72 42 56 73 42 56 73 66 74 42 66 74 76 64",
     "80 67 42 80 54 43 64 54 43 53 67 43 54 76 74 73 55 45 50 72 45 55 56 45 55 56 73 66 45 73",
     "66 74 80 45 74 80 76 54 45 76 54 64 53 67 51 44 67 45 64 53 48 67 45 51 44 45 67 52 47 57",
     "58 46 62 77 46 54 80 46 63 66 46 74 73 46 56 55 46 56 55 50 72 46 50 72 59 71 46 59 78 69",
     "66 63 54 58 57 47 52 48 47 57 53 47 51 64 47 80 76 47 80 76 74 73 47 74 73 55 56 47 55 56",
     "72 50 47 72 50 78 59 47 78 50 56 73 76 51 48 67 64 48 51 80 48 51 80 76 74 48 76 74 73 55",
     "48 73 55 56 72 48 56 72 50 78 48 50 63 49 61 66 78 63 49 54 72 56 50 49 56 55 73 76 51 80",
     "74 73 76 51 73 53 57 52 67 74 52 57 53 52 80 73 52 53 58 72 54 56 55 54 72 76 54 72 76 58",
     "57 80 53 54 58 57 80 67 74 53 73 64 53 73 54 80 67 74 73 54 64 53 54 73 74 67 57 76 56 78",
     "63 55 78 63 69 59 55 69 59 68 71 55 68 59 63 56 72 78 56 63 69 56 63 69 59 68 56 59 69 72",
     "76 57 80 58 57 76 78 57 76 78 72 63 57 72 63 69 59 57 72 76 58 80 78 63 76 58 63 76 69 72",
     "58 69 72 59 66 61 77 72 59 77 72 62 76 63 69 59 62 76 75 70 60 74 67 60 70 78 60 64 80 60",
     "63 69 60 63 78 75 76 72 61 66 77 61 72 62 61 72 62 76 69 61 76 69 75 78 61 75 78 70 64 80",
     "63 61 70 78 69 62 72 76 62 69 75 62 69 75 78 70 62 78 70 64 80 62 64 80 74 67 73 63 62 73",
     "67 74 80 64 78 70 64 78 73 80 78 73 70 69 75 64 73 70 69 75 76 72 64 73 75 76 72 77 66 64",
     "73 72 77 66 68 65 64 73 66 68 65 71 79 64 73 65 71 79 64 73 65 66 72 75 70 78 74 67 80 69",
     "78 74 69 78 76 70 74 76 70 77 75 74 77 75 68 72 74 68 72 71 66 74 71 66 79 65 74 79 66 72",
     "75 77 68 71 79 66 72 75 71 79 75 72 66 75 79 68 76 69 67 80 78 70 69 67 70 69 77 76 68 71",
     "76 68 67 77 68 67 71 79 72 76 67 71 79 72 76 67 71 68 77 79 68 71 72 68 71 77 79 71 77 72",
     "68 77 72 79 69 78 80 70 71 69 79 72 69 79 78 71 79 78 72 69 78 79 71 72 79 71 70 80 72 70",
     "71 79 70 71 80"]

/-! ## Loops -/

theorem mem_intRange (n x : Int) : x ∈ intRange n ↔ 0 ≤ x ∧ x < n := by
  unfold intRange
  constructor
  · intro h
    obtain ⟨k, hk, rfl⟩ := List.mem_map.1 h
    have := List.mem_range.1 hk
    constructor
    · exact Int.ofNat_nonneg k
    · simp only [Int.ofNat_eq_coe]
      omega
  · rintro ⟨h0, h1⟩
    refine List.mem_map.2 ⟨x.toNat, List.mem_range.2 ?_, ?_⟩
    · omega
    · simp only [Int.ofNat_eq_coe]
      omega

theorem intRange_natCast (n : Nat) : intRange (n : Int) = (List.range n).map Int.ofNat := by
  simp [intRange]

/-- After `n` iterations of the inner loop of `init` at row `i`. -/
theorem initRow_steps (i : Int) (n : Nat) (a : InitLoop) :
    (((List.range n).map Int.ofNat).foldl (initCell i) a).num_of_tiles = a.num_of_tiles - n ∧
    (((List.range n).map Int.ofNat).foldl (initCell i) a).sorted_tile = a.sorted_tile + n ∧
    (∀ x y, (((List.range n).map Int.ofNat).foldl (initCell i) a).board x y =
      if x = i ∧ 0 ≤ y ∧ y < n then a.num_of_tiles - y else a.board x y) ∧
    (∀ x y, (((List.range n).map Int.ofNat).foldl (initCell i) a).sorted_board x y =
      if x = i ∧ 0 ≤ y ∧ y < n then a.sorted_tile + y else a.sorted_board x y) := by
  induction n with
  | zero =>
    refine ⟨by simp, by simp, ?_, ?_⟩ <;> intro x y <;>
      simp only [List.range_zero, List.map_nil, List.foldl_nil] <;> split_ifs <;> omega
  | succ n ih =>
    obtain ⟨h1, h2, h3, h4⟩ := ih
    rw [List.range_succ, List.map_append, List.foldl_append]
    simp only [List.map_cons, List.map_nil, List.foldl_cons, List.foldl_nil, initCell,
      Int.ofNat_eq_coe, setCell]
    refine ⟨?_, ?_, ?_, ?_⟩
    · rw [h1]; push_cast; omega
    · rw [h2]; push_cast; omega
    · intro x y
      rw [h1, h3]
      push_cast
      split_ifs <;> omega
    · intro x y
      rw [h2, h4]
      push_cast
      split_ifs <;> omega


theorem initRow_spec (i : Int) (n : Nat) (a : InitLoop) :
    (initRow n a i).num_of_tiles = a.num_of_tiles - n ∧
    (initRow n a i).sorted_tile = a.sorted_tile + n ∧
    (∀ x y, (initRow n a i).board x y =
      if x = i ∧ 0 ≤ y ∧ y < n then a.num_of_tiles - y else a.board x y) ∧
    (∀ x y, (initRow n a i).sorted_board x y =
      if x = i ∧ 0 ≤ y ∧ y < n then a.sorted_tile + y else a.sorted_board x y) := by
  unfold initRow
  rw [intRange_natCast]
  exact initRow_steps i n a

/-- After `m` iterations of the outer loop of `init`, on a board of dimension `n`. -/
theorem initFill_steps (n m : Nat) (a : InitLoop) :
    (((List.range m).map Int.ofNat).foldl (initRow n) a).num_of_tiles
      = a.num_of_tiles - m * n ∧
    (((List.range m).map Int.ofNat).foldl (initRow n) a).sorted_tile
      = a.sorted_tile + m * n ∧
    (∀ x y, (((List.range m).map Int.ofNat).foldl (initRow n) a).board x y =
      if 0 ≤ x ∧ x < m ∧ 0 ≤ y ∧ y < n then a.num_of_tiles - (x * n + y) else a.board x y) ∧
    (∀ x y, (((List.range m).map Int.ofNat).foldl (initRow n) a).sorted_board x y =
      if 0 ≤ x ∧ x < m ∧ 0 ≤ y ∧ y < n then a.sorted_tile + (x * n + y)
      else a.sorted_board x y) := by
  induction m with
  | zero =>
    refine ⟨by simp, by simp, ?_, ?_⟩ <;> intro x y <;>
      simp only [List.range_zero, List.map_nil, List.foldl_nil] <;> split_ifs <;> omega
  | succ m ih =>
    obtain ⟨h1, h2, h3, h4⟩ := ih
    rw [List.range_succ, List.map_append, List.foldl_append]
    simp only [List.map_cons, List.map_nil, List.foldl_cons, List.foldl_nil, Int.ofNat_eq_coe]
    obtain ⟨r1, r2, r3, r4⟩ :=
      initRow_spec m n (((List.range m).map Int.ofNat).foldl (initRow n) a)
    refine ⟨?_, ?_, ?_, ?_⟩
    · rw [r1, h1]; push_cast; ring
    · rw [r2, h2]; push_cast; ring
    · intro x y
      rw [r3, h1, h3]
      push_cast
      by_cases hx : x = (m : Int)
      · subst hx
        by_cases hy : 0 ≤ y ∧ y < (n : Int)
        · rw [if_pos ⟨rfl, hy⟩, if_pos (by omega)]; ring
        · rw [if_neg (by tauto), if_neg (by omega), if_neg (by tauto)]
      · rw [if_neg (by tauto)]
        split_ifs <;> first | rfl | omega
    · intro x y
      rw [r4, h2, h4]
      push_cast
      by_cases hx : x = (m : Int)
      · subst hx
        by_cases hy : 0 ≤ y ∧ y < (n : Int)
        · rw [if_pos ⟨rfl, hy⟩, if_pos (by omega)]; ring
        · rw [if_neg (by tauto), if_neg (by omega), if_neg (by tauto)]
      · rw [if_neg (by tauto)]
        split_ifs <;> first | rfl | omega

/-- The arrays after the fill loops of `init`, in closed form. -/
theorem initFill_spec (s : State) (hd : 0 ≤ s.d) :
    (∀ x y, (initFill s).board x y =
      if inBoard s.d x y then s.d * s.d - 1 - (x * s.d + y) else s.board x y) ∧
    (∀ x y, (initFill s).sorted_board x y =
      if inBoard s.d x y then x * s.d + y + 1 else s.sorted_board x y) := by
  obtain ⟨n, hn⟩ := Int.eq_ofNat_of_zero_le hd
  unfold initFill inBoard
  rw [hn, intRange_natCast]
  obtain ⟨-, -, h3, h4⟩ := initFill_steps n n
    { board := s.board, sorted_board := s.sorted_board,
      num_of_tiles := (n : Int) * n - 1, sorted_tile := 1 }
  refine ⟨fun x y => ?_, fun x y => ?_⟩
  · rw [h3]
  · rw [h4]
    split_ifs <;> first | rfl | ring

/-! ## Boards that are permutations -/

theorem Bij.isPermutation {d : Int} {b : Int → Int → Int} (h : Bij d b) :
    IsPermutation d b := by
  obtain ⟨h1, h2, h3⟩ := h
  refine ⟨h1, fun v hv0 hv1 => ?_⟩
  obtain ⟨i, j, hij, hb⟩ := h3 v hv0 hv1
  exact ⟨i, j, hij, hb, fun x y hxy hx => h2 x y i j hxy hij (hx.trans hb.symm)⟩

/-- Row-major cell numbers determine the cell. -/
theorem cell_index_inj (d i j x y : Int) (hj : 0 ≤ j ∧ j < d) (hy : 0 ≤ y ∧ y < d)
    (h : i * d + j = x * d + y) : i = x ∧ j = y := by
  have hix : i = x := by
    rcases lt_trichotomy i x with hlt | heq | hgt
    · exfalso
      have : (i + 1) * d ≤ x * d := mul_le_mul_of_nonneg_right (by omega) (by omega)
      have h2 : (i + 1) * d = i * d + d := by ring
      omega
    · exact heq
    · exfalso
      have : (x + 1) * d ≤ i * d := mul_le_mul_of_nonneg_right (by omega) (by omega)
      have h2 : (x + 1) * d = x * d + d := by ring
      omega
  subst hix
  exact ⟨rfl, by omega⟩

theorem cell_index_bound (d i j : Int) (h : inBoard d i j) :
    0 ≤ i * d + j ∧ i * d + j < d * d := by
  obtain ⟨h1, h2, h3, h4⟩ := h
  have a1 : 0 ≤ i * d := mul_nonneg h1 (by omega)
  have a2 : (i + 1) * d ≤ d * d := mul_le_mul_of_nonneg_right (by omega) (by omega)
  have a3 : (i + 1) * d = i * d + d := by ring
  omega

theorem cell_index_surj (d k : Int) (hd : 0 < d) (h0 : 0 ≤ k) (h1 : k < d * d) :
    ∃ i j, inBoard d i j ∧ i * d + j = k := by
  refine ⟨k / d, k % d, ⟨Int.ediv_nonneg h0 (by omega), Int.ediv_lt_of_lt_mul hd h1,
    Int.emod_nonneg k (by omega), Int.emod_lt_of_pos k hd⟩, ?_⟩
  have := Int.ediv_add_emod k d
  have h2 : k / d * d = d * (k / d) := by ring
  omega

/-- The descending fill of `init` is a permutation. -/
theorem descending_bij (d : Int) (hd : 0 < d) (b : Int → Int → Int)
    (hb : ∀ i j, inBoard d i j → b i j = d * d - 1 - (i * d + j)) : Bij d b := by
  refine ⟨?_, ?_, ?_⟩
  · intro i j h
    have := cell_index_bound d i j h
    rw [hb i j h]; omega
  · intro i j x y h1 h2 he
    rw [hb i j h1, hb x y h2] at he
    exact cell_index_inj d i j x y ⟨h1.2.2.1, h1.2.2.2⟩ ⟨h2.2.2.1, h2.2.2.2⟩ (by omega)
  · intro v h0 h1
    obtain ⟨i, j, hij, hk⟩ := cell_index_surj d (d * d - 1 - v) hd (by omega) (by omega)
    exact ⟨i, j, hij, by rw [hb i j hij]; omega⟩

theorem swapCell_swapCell (p q r t : Int) (c : Int × Int) :
    swapCell p q r t (swapCell p q r t c) = c := by
  obtain ⟨x, y⟩ := c
  unfold swapCell
  by_cases h1 : x = r ∧ y = t
  · by_cases h2 : p = r ∧ q = t
    · simp [h1, h2]
    · simp [h1, h2]
  · by_cases h3 : x = p ∧ y = q
    · obtain ⟨rfl, rfl⟩ := h3
      simp [h1]
    · simp [h1, h3]

theorem swapCell_inBoard (d p q r t : Int) (hp : inBoard d p q) (hr : inBoard d r t)
    (c : Int × Int) (hc : inBoard d c.1 c.2) :
    inBoard d (swapCell p q r t c).1 (swapCell p q r t c).2 := by
  unfold swapCell
  split_ifs
  · exact hp
  · exact hr
  · exact hc

theorem setCell_swap (b : Int → Int → Int) (p q r t x y : Int) :
    setCell (setCell b p q (b r t)) r t (b p q) x y =
      b (swapCell p q r t (x, y)).1 (swapCell p q r t (x, y)).2 := by
  unfold setCell swapCell
  split_ifs <;> rfl

/-- Exchanging the contents of two cells of the board keeps a permutation a permutation. -/
theorem Bij.swap {d : Int} {b : Int → Int → Int} (h : Bij d b) (p q r t : Int)
    (hp : inBoard d p q) (hr : inBoard d r t) :
    Bij d (setCell (setCell b p q (b r t)) r t (b p q)) := by
  obtain ⟨h1, h2, h3⟩ := h
  refine ⟨?_, ?_, ?_⟩
  · intro i j hij
    rw [setCell_swap]
    exact h1 _ _ (swapCell_inBoard d p q r t hp hr (i, j) hij)
  · intro i j x y hij hxy he
    rw [setCell_swap, setCell_swap] at he
    have e := h2 _ _ _ _ (swapCell_inBoard d p q r t hp hr (i, j) hij)
      (swapCell_inBoard d p q r t hp hr (x, y) hxy) he
    have e2 : swapCell p q r t (i, j) = swapCell p q r t (x, y) := Prod.ext e.1 e.2
    have e3 := congrArg (swapCell p q r t) e2
    rw [swapCell_swapCell, swapCell_swapCell] at e3
    exact ⟨congrArg Prod.fst e3, congrArg Prod.snd e3⟩
  · intro v hv0 hv1
    obtain ⟨i, j, hij, hb⟩ := h3 v hv0 hv1
    refine ⟨(swapCell p q r t (i, j)).1, (swapCell p q r t (i, j)).2,
      swapCell_inBoard d p q r t hp hr (i, j) hij, ?_⟩
    rw [setCell_swap, Prod.mk.eta, swapCell_swapCell]
    exact hb

/-! ## `init` in closed form -/

theorem init_board_odd (s : State) (h : s.d % 2 ≠ 0) :
    (init s).board = (initFill s).board := by
  simp [init, h]

theorem init_board_even (s : State) (h : s.d % 2 = 0) :
    (init s).board =
      setCell (setCell (initFill s).board (s.d - 1) (s.d - 2) 2) (s.d - 1) (s.d - 3) 1 := by
  simp [init, h]

theorem initFill_board (s : State) (hd : 0 ≤ s.d) (x y : Int) (h : inBoard s.d x y) :
    (initFill s).board x y = s.d * s.d - 1 - (x * s.d + y) := by
  rw [(initFill_spec s hd).1, if_pos h]

/-- The board after `init`, cell by cell. -/
theorem init_board (s : State) (hd : 0 ≤ s.d) (x y : Int) (h : inBoard s.d x y) :
    (init s).board x y =
      if s.d % 2 = 0 ∧ x = s.d - 1 ∧ y = s.d - 3 then 1
      else if s.d % 2 = 0 ∧ x = s.d - 1 ∧ y = s.d - 2 then 2
      else s.d * s.d - 1 - (x * s.d + y) := by
  by_cases he : s.d % 2 = 0
  · rw [init_board_even s he]
    simp only [setCell, he, true_and]
    split_ifs
    · rfl
    · rfl
    · exact initFill_board s hd x y h
  · rw [init_board_odd s he, initFill_board s hd x y h]
    simp [he]

/-- The array `sorted_board` after `init`, cell by cell. -/
theorem init_sorted_board (s : State) (hd : 0 ≤ s.d) : IsSolved s.d (init s).sorted_board := by
  intro x y h
  show setCell (initFill s).sorted_board (s.d - 1) (s.d - 1) 0 x y = _
  unfold setCell
  split_ifs
  · rfl
  · rw [(initFill_spec s hd).2, if_pos h]

theorem init_bij (s : State) (hd : 3 ≤ s.d) : Bij s.d (init s).board := by
  have hfill : Bij s.d (initFill s).board :=
    descending_bij s.d (by omega) _ (fun i j h => initFill_board s (by omega) i j h)
  by_cases he : s.d % 2 = 0
  · have hp : inBoard s.d (s.d - 1) (s.d - 2) := by unfold inBoard; omega
    have hr : inBoard s.d (s.d - 1) (s.d - 3) := by unfold inBoard; omega
    have e1 : (initFill s).board (s.d - 1) (s.d - 2) = 1 := by
      rw [initFill_board s (by omega) _ _ hp]; ring
    have e2 : (initFill s).board (s.d - 1) (s.d - 3) = 2 := by
      rw [initFill_board s (by omega) _ _ hr]; ring
    have := hfill.swap (s.d - 1) (s.d - 2) (s.d - 1) (s.d - 3) hp hr
    rw [e1, e2] at this
    rw [init_board_even s he]
    exact this
  · rw [init_board_odd s he]
    exact hfill

theorem init_inv (s : State) (hd : 3 ≤ s.d) : Inv (init s) := by
  have hb : inBoard s.d (s.d - 1) (s.d - 1) := by unfold inBoard; omega
  refine ⟨hb, ?_, init_bij s hd, init_sorted_board s (by omega)⟩
  show (init s).board (s.d - 1) (s.d - 1) = 0
  rw [init_board s (by omega) _ _ hb, if_neg (by omega), if_neg (by omega)]
  ring

/-! ## `move` case by case -/

theorem borders_iff_adjacent (s : State) (i j : Int) :
    borders s i j ↔ adjacent i j s.empty_column s.empty_row := by
  unfold borders adjacent
  omega

/-- Either `move` finds no cell that holds the tile and borders the empty space, and returns
`false` without a write, or it returns `true` after the exchange at such a cell. -/
theorem move_cases (tile : Int) (s : State) :
    (move tile s = (false, s) ∧
      ∀ i j, inBoard s.d i j → s.board i j = tile → ¬ borders s i j) ∨
    (∃ i j, inBoard s.d i j ∧ s.board i j = tile ∧ borders s i j ∧
      move tile s = (true, moved s tile i j)) := by
  unfold move
  cases hf : (intRange s.d).findSome?
      (fun i => (intRange s.d).findSome? (fun j => moveAt s tile i j)) with
  | none =>
    left
    refine ⟨rfl, fun i j hij hb hbord => ?_⟩
    rw [List.findSome?_eq_none_iff] at hf
    have h1 := hf i ((mem_intRange _ _).2 ⟨hij.1, hij.2.1⟩)
    rw [List.findSome?_eq_none_iff] at h1
    have h2 := h1 j ((mem_intRange _ _).2 ⟨hij.2.2.1, hij.2.2.2⟩)
    simp [moveAt, hb, hbord] at h2
  | some s1 =>
    right
    obtain ⟨i, hi, h1⟩ := List.exists_of_findSome?_eq_some hf
    obtain ⟨j, hj, h2⟩ := List.exists_of_findSome?_eq_some h1
    rw [mem_intRange] at hi hj
    unfold moveAt at h2
    split_ifs at h2 with c1 c2
    refine ⟨i, j, ⟨hi.1, hi.2, hj.1, hj.2⟩, c1.symm, c2, ?_⟩
    simp only [Option.some.injEq] at h2
    rw [← h2]
    rfl

theorem adjacent_ne (i j bi bj : Int) (h : adjacent i j bi bj) : ¬(i = bi ∧ j = bj) := by
  unfold adjacent at h
  omega

theorem adjacent_symm (i j bi bj : Int) (h : adjacent i j bi bj) : adjacent bi bj i j := by
  unfold adjacent at h ⊢
  omega

theorem moved_inv (s : State) (tile i j : Int) (h : Inv s) (hij : inBoard s.d i j)
    (hb : s.board i j = tile) : Inv (moved s tile i j) := by
  refine ⟨hij, ?_, ?_, h.sorted⟩
  · show setCell (setCell s.board s.empty_column s.empty_row tile) i j 0 i j = 0
    simp [setCell]
  · have := h.bij.swap s.empty_column s.empty_row i j h.blank_in hij
    rw [h.blank_zero, hb] at this
    exact this

theorem move_d (tile : Int) (s : State) : (move tile s).2.d = s.d := by
  rcases move_cases tile s with ⟨h, -⟩ | ⟨i, j, -, -, -, h⟩
  · rw [h]
  · rw [h]; rfl

theorem move_sorted_board (tile : Int) (s : State) :
    (move tile s).2.sorted_board = s.sorted_board := by
  rcases move_cases tile s with ⟨h, -⟩ | ⟨i, j, -, -, -, h⟩
  · rw [h]
  · rw [h]; rfl

theorem move_inv (tile : Int) (s : State) (h : Inv s) : Inv (move tile s).2 := by
  rcases move_cases tile s with ⟨e, -⟩ | ⟨i, j, hij, hb, -, e⟩
  · rw [e]; exact h
  · rw [e]; exact moved_inv s tile i j h hij hb

/-- The invariant holds in every reachable state of a game of dimension at least `DIM_MIN`. -/
theorem Reachable.inv {s : State} (hr : Reachable s) (hd : 3 ≤ s.d) : Inv s := by
  induction hr with
  | init s0 => exact init_inv s0 hd
  | move tile s _ ih =>
    rw [move_d] at hd
    exact move_inv tile s (ih hd)

/-- In a state that satisfies the invariant, a tile found at a cell bordering the empty space
is moved from exactly that cell. -/
theorem move_of_adjacent (s : State) (h : Inv s) (tile i j : Int) (hij : inBoard s.d i j)
    (hb : s.board i j = tile) (hadj : adjacent i j s.empty_column s.empty_row) :
    move tile s = (true, moved s tile i j) := by
  rcases move_cases tile s with ⟨-, hno⟩ | ⟨x, y, hxy, hx, -, e⟩
  · exact absurd ((borders_iff_adjacent s i j).2 hadj) (hno i j hij hb)
  · obtain ⟨rfl, rfl⟩ := h.bij.2.1 x y i j hxy hij (hx.trans hb.symm)
    exact e

theorem moved_moved (s : State) (h : Inv s) (tile i j : Int) (hb : s.board i j = tile)
    (hadj : adjacent i j s.empty_column s.empty_row) :
    moved (moved s tile i j) tile s.empty_column s.empty_row = s := by
  have hne := adjacent_ne i j _ _ hadj
  have hboard : setCell (setCell (setCell (setCell s.board s.empty_column s.empty_row tile)
      i j 0) i j tile) s.empty_column s.empty_row 0 = s.board := by
    funext x y
    unfold setCell
    by_cases c1 : x = s.empty_column ∧ y = s.empty_row
    · rw [if_pos c1, c1.1, c1.2, h.blank_zero]
    · rw [if_neg c1]
      by_cases c2 : x = i ∧ y = j
      · rw [if_pos c2, c2.1, c2.2, hb]
      · rw [if_neg c2, if_neg c2, if_neg c1]
  cases s
  simp only [moved] at hboard ⊢
  simp only [hboard]

/-! ## `won` as a comparison -/

theorem foldl_flag (p : Int → Prop) [DecidablePred p] (l : List Int) (acc : Bool) :
    l.foldl (fun a j => if p j then false else a) acc = true ↔
      acc = true ∧ ∀ j ∈ l, ¬ p j := by
  induction l generalizing acc with
  | nil => simp
  | cons x xs ih =>
    rw [List.foldl_cons, ih]
    by_cases hx : p x
    · simp [hx]
    · simp [hx]

theorem wonRow_true (s : State) (i : Int) (acc : Bool) :
    wonRow s i acc = true ↔
      acc = true ∧ ∀ j ∈ intRange s.d, s.board i j = s.sorted_board i j := by
  unfold wonRow
  rw [foldl_flag (fun j => s.board i j ≠ s.sorted_board i j)]
  simp

theorem wonLoop_steps (s : State) (l : List Int) (acc : Bool × String) :
    (l.foldl (fun a i => (wonRow s i a.1, a.2 ++ "\n")) acc).1 = true ↔
      acc.1 = true ∧ ∀ i ∈ l, ∀ j ∈ intRange s.d, s.board i j = s.sorted_board i j := by
  induction l generalizing acc with
  | nil => simp
  | cons x xs ih =>
    rw [List.foldl_cons, ih]
    simp only [wonRow_true, List.mem_cons, forall_eq_or_imp]
    tauto

/-- The value `won` returns: `true` exactly when `board` and `sorted_board` agree on every
cell of the `d x d` board. -/
theorem won_true_iff (s : State) :
    (won s).1 = true ↔ ∀ i j, inBoard s.d i j → s.board i j = s.sorted_board i j := by
  show (wonLoop s).1 = true ↔ _
  unfold wonLoop
  rw [wonLoop_steps]
  simp only [mem_intRange, true_and]
  constructor
  · intro h i j hij
    exact h i ⟨hij.1, hij.2.1⟩ j ⟨hij.2.2.1, hij.2.2.2⟩
  · intro h i hi j hj
    exact h i j ⟨hi.1, hi.2, hj.1, hj.2⟩

/-! ## The claims -/

theorem forall_inBoard (d : Int) (P : Int → Int → Prop)
    (h : ∀ i ∈ intRange d, ∀ j ∈ intRange d, P i j) : ∀ i j, inBoard d i j → P i j :=
  fun i j hij =>
    h i ((mem_intRange d i).2 ⟨hij.1, hij.2.1⟩) j ((mem_intRange d j).2 ⟨hij.2.2.1, hij.2.2.2⟩)

/-- C1: in any state and for any integer `tile`, if no cell of the `d x d` board that holds
`tile` is 4-directionally adjacent to the blank position `(empty_column, empty_row)`, then
`move(tile)` returns `false` and leaves every global (board, solved board, blank position)
as it was. -/
theorem move_not_adjacent_fails (s : State) (tile : Int)
    (h : ∀ i j, inBoard s.d i j → s.board i j = tile →
      ¬ adjacent i j s.empty_column s.empty_row) :
    (move tile s).1 = false ∧ (move tile s).2 = s := by
  rcases move_cases tile s with ⟨e, -⟩ | ⟨i, j, hij, hb, hbord, -⟩
  · rw [e]; exact ⟨rfl, rfl⟩
  · exact absurd ((borders_iff_adjacent s i j).1 hbord) (h i j hij hb)

/-- Witness for C1: on the fresh `3 x 3` board, tile `8` sits at `(0, 0)`, away from the
blank at `(2, 2)`, and `move(8)` fails without a change. -/
theorem move_not_adjacent_fails_witness :
    (∀ i j, inBoard fresh3.d i j → fresh3.board i j = 8 →
      ¬ adjacent i j fresh3.empty_column fresh3.empty_row) ∧
    (move 8 fresh3).1 = false ∧ (move 8 fresh3).2 = fresh3 :=
  ⟨forall_inBoard fresh3.d _ (by decide),
   move_not_adjacent_fails fresh3 8 (forall_inBoard fresh3.d _ (by decide))⟩

/-- C2: for `3 ≤ d ≤ 9`, in every state reachable from `init()` by calls of `move`, and for
a tile located at a cell `(i, j)` of the board that is 4-directionally adjacent to the blank:
`move(tile)` returns `true`; afterwards the blank's former cell holds `tile`, cell `(i, j)`
holds `0`, every other cell is unchanged, the cells whose content differs are exactly those
two, and the blank position is `(i, j)`. -/
theorem move_adjacent_succeeds (s : State) (hd : 3 ≤ s.d ∧ s.d ≤ 9) (hr : Reachable s)
    (tile i j : Int) (hij : inBoard s.d i j) (hb : s.board i j = tile)
    (hadj : adjacent i j s.empty_column s.empty_row) :
    (move tile s).1 = true ∧
    (move tile s).2.board s.empty_column s.empty_row = tile ∧
    (move tile s).2.board i j = 0 ∧
    (∀ x y, ¬(x = i ∧ y = j) → ¬(x = s.empty_column ∧ y = s.empty_row) →
      (move tile s).2.board x y = s.board x y) ∧
    (∀ x y, (move tile s).2.board x y ≠ s.board x y ↔
      (x = i ∧ y = j) ∨ (x = s.empty_column ∧ y = s.empty_row)) ∧
    (move tile s).2.empty_column = i ∧ (move tile s).2.empty_row = j := by
  have hinv := hr.inv hd.1
  have hne := adjacent_ne i j _ _ hadj
  have htile : tile ≠ 0 := by
    intro h0
    exact hne (hinv.bij.2.1 i j _ _ hij hinv.blank_in
      (by rw [hb, h0, hinv.blank_zero]))
  rw [move_of_adjacent s hinv tile i j hij hb hadj]
  have hcell : ∀ x y, (moved s tile i j).board x y =
      if x = i ∧ y = j then 0
      else if x = s.empty_column ∧ y = s.empty_row then tile else s.board x y :=
    fun x y => rfl
  refine ⟨rfl, ?_, ?_, ?_, ?_, rfl, rfl⟩
  · rw [hcell, if_neg (fun c => hne ⟨c.1.symm, c.2.symm⟩), if_pos ⟨rfl, rfl⟩]
  · rw [hcell, if_pos ⟨rfl, rfl⟩]
  · intro x y c1 c2
    rw [hcell, if_neg c1, if_neg c2]
  · intro x y
    show (moved s tile i j).board x y ≠ s.board x y ↔ _
    rw [hcell]
    by_cases c1 : x = i ∧ y = j
    · rw [if_pos c1, c1.1, c1.2, hb]
      exact ⟨fun _ => Or.inl ⟨rfl, rfl⟩, fun _ => Ne.symm htile⟩
    · rw [if_neg c1]
      by_cases c2 : x = s.empty_column ∧ y = s.empty_row
      · rw [if_pos c2, c2.1, c2.2, hinv.blank_zero]
        exact ⟨fun _ => Or.inr ⟨rfl, rfl⟩, fun _ => htile⟩
      · rw [if_neg c2]
        exact ⟨fun h => absurd rfl h, fun h => h.elim (absurd · c1) (absurd · c2)⟩

/-- Witness for C2: on the fresh `3 x 3` board, tile `1` at `(2, 1)` is next to the blank at
`(2, 2)`, and `move(1)` exchanges the two. -/
theorem move_adjacent_succeeds_witness :
    (move 1 fresh3).1 = true ∧
    (move 1 fresh3).2.board fresh3.empty_column fresh3.empty_row = 1 ∧
    (move 1 fresh3).2.board 2 1 = 0 ∧
    (∀ x y, ¬(x = 2 ∧ y = 1) → ¬(x = fresh3.empty_column ∧ y = fresh3.empty_row) →
      (move 1 fresh3).2.board x y = fresh3.board x y) ∧
    (∀ x y, (move 1 fresh3).2.board x y ≠ fresh3.board x y ↔
      (x = 2 ∧ y = 1) ∨ (x = fresh3.empty_column ∧ y = fresh3.empty_row)) ∧
    (move 1 fresh3).2.empty_column = 2 ∧ (move 1 fresh3).2.empty_row = 1 :=
  move_adjacent_succeeds fresh3 (by decide) (Reachable.init start3) 1 2 1
    (by decide) (by decide) (by decide)

/-- C3: for `3 ≤ d ≤ 9`, after `init()` the `d*d` cells of the board hold each of the values
`0, 1, ..., d*d - 1` exactly once, for odd `d` and for even `d` (where two cells are
overwritten after the fill); `init` leaves `d` as it is. -/
theorem init_is_permutation (s : State) (hd : 3 ≤ s.d ∧ s.d ≤ 9) :
    (init s).d = s.d ∧ IsPermutation s.d (init s).board :=
  ⟨rfl, (init_bij s hd.1).isPermutation⟩

/-- Witness for C3, at `d = 4`, an even dimension. -/
theorem init_is_permutation_witness :
    (init start4).d = start4.d ∧ IsPermutation start4.d (init start4).board :=
  init_is_permutation start4 (by decide)

/-- C4: for `3 ≤ d ≤ 9` and whatever the globals held before, after `init()` every cell
`(i, j)` of the board holds `d*d - 1 - (i*d + j)`, except the cells `(d-1, d-3)` and
`(d-1, d-2)` when `d` is even; the last cell `(d-1, d-1)` holds `0`; the blank position is
row `d - 1`, column `d - 1`; and for `d = 3` the rows are `[8,7,6]`, `[5,4,3]`, `[2,1,0]`. -/
theorem init_descending (s : State) (hd : 3 ≤ s.d ∧ s.d ≤ 9) :
    (∀ i j, inBoard s.d i j →
      ¬(s.d % 2 = 0 ∧ i = s.d - 1 ∧ (j = s.d - 3 ∨ j = s.d - 2)) →
      (init s).board i j = s.d * s.d - 1 - (i * s.d + j)) ∧
    (init s).board (s.d - 1) (s.d - 1) = 0 ∧
    (init s).empty_column = s.d - 1 ∧ (init s).empty_row = s.d - 1 ∧
    (s.d = 3 → rows (init s) = [[8, 7, 6], [5, 4, 3], [2, 1, 0]]) := by
  have h0 : 0 ≤ s.d := by omega
  refine ⟨?_, (init_inv s hd.1).blank_zero, rfl, rfl, ?_⟩
  · intro i j hij hne
    rw [init_board s h0 i j hij, if_neg (by tauto), if_neg (by tauto)]
  · intro h3
    have hc : ∀ i j, inBoard 3 i j → (init s).board i j = 8 - (i * 3 + j) := by
      intro i j hij
      rw [init_board s h0 i j (h3 ▸ hij), if_neg (by omega), if_neg (by omega), h3]
      ring
    have hrange : intRange 3 = [0, 1, 2] := by decide
    have hd3 : (init s).d = 3 := h3
    unfold rows
    rw [hd3, hrange]
    simp only [List.map_cons, List.map_nil]
    rw [hc 0 0 (by decide), hc 0 1 (by decide), hc 0 2 (by decide),
      hc 1 0 (by decide), hc 1 1 (by decide), hc 1 2 (by decide),
      hc 2 0 (by decide), hc 2 1 (by decide), hc 2 2 (by decide)]
    rfl

/-- Witness for C4, at `d = 3`. -/
theorem init_descending_witness :
    (∀ i j, inBoard start3.d i j →
      ¬(start3.d % 2 = 0 ∧ i = start3.d - 1 ∧ (j = start3.d - 3 ∨ j = start3.d - 2)) →
      (init start3).board i j = start3.d * start3.d - 1 - (i * start3.d + j)) ∧
    (init start3).board (start3.d - 1) (start3.d - 1) = 0 ∧
    (init start3).empty_column = start3.d - 1 ∧ (init start3).empty_row = start3.d - 1 ∧
    (start3.d = 3 → rows (init start3) = [[8, 7, 6], [5, 4, 3], [2, 1, 0]]) :=
  init_descending start3 (by decide)

/-- C5: for even `d` in `[3, 9]` (that is 4, 6, 8), after `init()` the last row ends with
`1, 2, 0`: cell `(d-1, d-3)` holds `1`, cell `(d-1, d-2)` holds `2`, cell `(d-1, d-1)` holds
`0`.  The two overwritten cells are on the board, distinct from each other and from the blank
cell, held `2` and `1` after the fill loops, and no other cell differs from the fill: the
overwrite exchanges the values `1` and `2`.  For odd `d` the board is the fill, unchanged. -/
theorem init_even_exchange (s : State) (hd : 3 ≤ s.d ∧ s.d ≤ 9) :
    (s.d % 2 = 0 →
      (init s).board (s.d - 1) (s.d - 3) = 1 ∧
      (init s).board (s.d - 1) (s.d - 2) = 2 ∧
      (init s).board (s.d - 1) (s.d - 1) = 0 ∧
      inBoard s.d (s.d - 1) (s.d - 3) ∧ inBoard s.d (s.d - 1) (s.d - 2) ∧
      s.d - 3 ≠ s.d - 2 ∧ s.d - 3 ≠ (init s).empty_row ∧ s.d - 2 ≠ (init s).empty_row ∧
      (initFill s).board (s.d - 1) (s.d - 3) = 2 ∧
      (initFill s).board (s.d - 1) (s.d - 2) = 1 ∧
      ∀ x y, ¬(x = s.d - 1 ∧ y = s.d - 3) → ¬(x = s.d - 1 ∧ y = s.d - 2) →
        (init s).board x y = (initFill s).board x y) ∧
    (s.d % 2 ≠ 0 → (init s).board = (initFill s).board) := by
  have h0 : 0 ≤ s.d := by omega
  refine ⟨fun he => ?_, init_board_odd s⟩
  have hp : inBoard s.d (s.d - 1) (s.d - 2) := by unfold inBoard; omega
  have hr : inBoard s.d (s.d - 1) (s.d - 3) := by unfold inBoard; omega
  have he4 : (init s).empty_row = s.d - 1 := rfl
  refine ⟨?_, ?_, (init_inv s hd.1).blank_zero, hr, hp, by omega, by omega, by omega,
    ?_, ?_, ?_⟩
  · rw [init_board s h0 _ _ hr, if_pos ⟨he, rfl, rfl⟩]
  · rw [init_board s h0 _ _ hp, if_neg (by omega), if_pos ⟨he, rfl, rfl⟩]
  · rw [initFill_board s h0 _ _ hr]; ring
  · rw [initFill_board s h0 _ _ hp]; ring
  · intro x y c1 c2
    rw [init_board_even s he]
    unfold setCell
    rw [if_neg c1, if_neg c2]

/-- Witness for C5, at `d = 4`. -/
theorem init_even_exchange_witness :
    (init start4).board 3 1 = 1 ∧ (init start4).board 3 2 = 2 ∧
    (init start4).board 3 3 = 0 ∧
    (initFill start4).board 3 1 = 2 ∧ (initFill start4).board 3 2 = 1 :=
  have h := (init_even_exchange start4 (by decide)).1 (by decide)
  ⟨h.1, h.2.1, h.2.2.1, h.2.2.2.2.2.2.2.2.1, h.2.2.2.2.2.2.2.2.2.1⟩

/-- C6: for `3 ≤ d ≤ 9` and every state reachable from `init()` by calls of `move`,
`won()` returns `true` if and only if the board is the canonical solved board (`i*d + j + 1`
at every cell `(i, j)` but the last, `0` at `(d-1, d-1)`); in particular `won()` returns
`true` whenever the board holds the canonical solved board; and neither `move` nor `won`
changes the solved board built by `init()`. -/
theorem won_iff_solved (s : State) (hd : 3 ≤ s.d ∧ s.d ≤ 9) (hr : Reachable s) :
    ((won s).1 = true ↔ IsSolved s.d s.board) ∧
    (∀ b, IsSolved s.d b → (won { s with board := b }).1 = true) ∧
    IsSolved s.d s.sorted_board ∧
    (∀ tile, (move tile s).2.sorted_board = s.sorted_board) ∧
    (won s).2.sorted_board = s.sorted_board := by
  have hs := (hr.inv hd.1).sorted
  refine ⟨?_, ?_, hs, fun tile => move_sorted_board tile s, rfl⟩
  · rw [won_true_iff]
    constructor
    · intro h i j hij
      rw [h i j hij]; exact hs i j hij
    · intro h i j hij
      rw [h i j hij]; exact (hs i j hij).symm
  · intro b hb
    rw [won_true_iff]
    intro i j hij
    exact (hb i j hij).trans (hs i j hij).symm

/-- Witness for C6, on the fresh `3 x 3` board. -/
theorem won_iff_solved_witness :
    ((won fresh3).1 = true ↔ IsSolved fresh3.d fresh3.board) ∧
    (∀ b, IsSolved fresh3.d b → (won { fresh3 with board := b }).1 = true) ∧
    IsSolved fresh3.d fresh3.sorted_board ∧
    (∀ tile, (move tile fresh3).2.sorted_board = fresh3.sorted_board) ∧
    (won fresh3).2.sorted_board = fresh3.sorted_board :=
  won_iff_solved fresh3 (by decide) (Reachable.init start3)

/-- C7: for `3 ≤ d ≤ 9`, `won()` returns `false` right after `init()`: the top-left cell
holds `d*d - 1`, where the solved board holds `1`. -/
theorem won_false_after_init (s : State) (hd : 3 ≤ s.d ∧ s.d ≤ 9) :
    (won (init s)).1 = false ∧ (init s).board 0 0 = s.d * s.d - 1 ∧
    (init s).sorted_board 0 0 = 1 := by
  have h0 : 0 ≤ s.d := by omega
  have h00 : inBoard s.d 0 0 := by unfold inBoard; omega
  have hb : (init s).board 0 0 = s.d * s.d - 1 := by
    rw [init_board s h0 0 0 h00, if_neg (by omega), if_neg (by omega)]; ring
  have hsb : (init s).sorted_board 0 0 = 1 := by
    rw [init_sorted_board s h0 0 0 h00, if_neg (by omega)]; ring
  refine ⟨?_, hb, hsb⟩
  rw [← Bool.not_eq_true, won_true_iff]
  intro h
  have := h 0 0 h00
  rw [hb, hsb] at this
  nlinarith [hd.1]

/-- Witness for C7, at `d = 3`, where the top-left cell holds `8`. -/
theorem won_false_after_init_witness :
    (won (init start3)).1 = false ∧ (init start3).board 0 0 = 8 ∧
    (init start3).sorted_board 0 0 = 1 :=
  won_false_after_init start3 (by decide)

/-- C8: for `3 ≤ d ≤ 9`, every state `s` reachable from `init()` and every tile `t` for
which `move(t)` succeeds in `s`: a second `move(t)` succeeds as well, and after the two calls
every global (in particular the board and the blank position) is as in `s`. -/
theorem move_twice_restores (s : State) (hd : 3 ≤ s.d ∧ s.d ≤ 9) (hr : Reachable s)
    (t : Int) (h : (move t s).1 = true) :
    (move t (move t s).2).1 = true ∧ (move t (move t s).2).2 = s := by
  have hinv := hr.inv hd.1
  rcases move_cases t s with ⟨e, -⟩ | ⟨i, j, hij, hb, hbord, e⟩
  · rw [e] at h; exact absurd h Bool.false_ne_true
  · have hadj := (borders_iff_adjacent s i j).1 hbord
    have hne := adjacent_ne i j _ _ hadj
    have hinv1 := moved_inv s t i j hinv hij hb
    have hcell : (moved s t i j).board s.empty_column s.empty_row = t := by
      show setCell (setCell s.board s.empty_column s.empty_row t) i j 0
        s.empty_column s.empty_row = t
      unfold setCell
      rw [if_neg (fun c => hne ⟨c.1.symm, c.2.symm⟩), if_pos ⟨rfl, rfl⟩]
    have e2 := move_of_adjacent (moved s t i j) hinv1 t s.empty_column s.empty_row
      hinv.blank_in hcell (adjacent_symm i j _ _ hadj)
    rw [e]
    show (move t (moved s t i j)).1 = true ∧ (move t (moved s t i j)).2 = s
    rw [e2]
    exact ⟨rfl, moved_moved s hinv t i j hb hadj⟩

/-- Witness for C8: tile `1` moved twice on the fresh `3 x 3` board. -/
theorem move_twice_restores_witness :
    (move 1 fresh3).1 = true ∧
    (move 1 (move 1 fresh3).2).1 = true ∧ (move 1 (move 1 fresh3).2).2 = fresh3 :=
  ⟨by decide, move_twice_restores fresh3 (by decide) (Reachable.init start3) 1 (by decide)⟩

/-- C9: for `3 ≤ d ≤ 9`, after `init()` and after every later call of `move`, successful or
not, the cached blank coordinates are on the board (`0 ≤ empty_column < d` and
`0 ≤ empty_row < d`), `board[empty_column][empty_row]` is `0`, and no other cell of the board
holds `0`: the cached position is the one a scan of the board for `0` finds. -/
theorem blank_position_invariant (s : State) (hd : 3 ≤ s.d ∧ s.d ≤ 9) (hr : Reachable s) :
    (0 ≤ s.empty_column ∧ s.empty_column < s.d) ∧
    (0 ≤ s.empty_row ∧ s.empty_row < s.d) ∧
    s.board s.empty_column s.empty_row = 0 ∧
    (∀ i j, inBoard s.d i j → s.board i j = 0 → i = s.empty_column ∧ j = s.empty_row) := by
  have hinv := hr.inv hd.1
  obtain ⟨h1, h2, h3, h4⟩ := hinv.blank_in
  refine ⟨⟨h1, h2⟩, ⟨h3, h4⟩, hinv.blank_zero, fun i j hij hz => ?_⟩
  exact hinv.bij.2.1 i j _ _ hij hinv.blank_in (hz.trans hinv.blank_zero.symm)

/-- Witness for C9: the `3 x 3` board after `init()`, a failed `move(8)` and a successful
`move(1)`. -/
theorem blank_position_invariant_witness :
    (move 1 (move 8 fresh3).2).2.empty_column = 2 ∧
    (move 1 (move 8 fresh3).2).2.empty_row = 1 ∧
    (move 1 (move 8 fresh3).2).2.board 2 1 = 0 :=
  have h := blank_position_invariant (move 1 (move 8 fresh3).2).2 (by decide)
    (Reachable.move 1 _ (Reachable.move 8 _ (Reachable.init start3)))
  ⟨by decide, by decide, h.2.2.1⟩

/-- C10: for `3 ≤ d ≤ 9`, in every state reachable from `init()` by any finite sequence of
`move` calls with arbitrary integer arguments, the `d*d` cells of the board hold each value
of `0, ..., d*d - 1` exactly once. -/
theorem reachable_is_permutation (s : State) (hd : 3 ≤ s.d ∧ s.d ≤ 9) (hr : Reachable s) :
    IsPermutation s.d s.board :=
  (hr.inv hd.1).bij.isPermutation

/-- Witness for C10: the `4 x 4` board after `init()` and the calls `move(2)`, `move(-5)`,
`move(1)`. -/
theorem reachable_is_permutation_witness :
    IsPermutation 4 (move 1 (move (-5) (move 2 fresh4).2).2).2.board :=
  reachable_is_permutation (move 1 (move (-5) (move 2 fresh4).2).2).2 (by decide)
    (Reachable.move 1 _ (Reachable.move (-5) _ (Reachable.move 2 _ (Reachable.init start4))))

/-- C11: for `3 ≤ d ≤ 9` and every state reachable from `init()`, `move(0)` returns `false`,
and `move(t)` returns `false` for every `t < 0` and every `t ≥ d*d`; in each case every
global (board, blank position) is unchanged.  The label `0` does occur on the board, at the
blank cell, and that cell is not adjacent to itself. -/
theorem move_zero_or_out_of_range_fails (s : State) (hd : 3 ≤ s.d ∧ s.d ≤ 9)
    (hr : Reachable s) (t : Int) (ht : t = 0 ∨ t < 0 ∨ s.d * s.d ≤ t) :
    (move t s).1 = false ∧ (move t s).2 = s ∧
    s.board s.empty_column s.empty_row = 0 ∧
    ¬ adjacent s.empty_column s.empty_row s.empty_column s.empty_row := by
  have hinv := hr.inv hd.1
  have hself : ¬ adjacent s.empty_column s.empty_row s.empty_column s.empty_row :=
    fun h => adjacent_ne _ _ _ _ h ⟨rfl, rfl⟩
  rcases move_cases t s with ⟨e, -⟩ | ⟨i, j, hij, hb, hbord, -⟩
  · rw [e]; exact ⟨rfl, rfl, hinv.blank_zero, hself⟩
  · exfalso
    have hrange := hinv.bij.1 i j hij
    rw [hb] at hrange
    rcases ht with h0 | hneg | hbig
    · have hcell := hinv.bij.2.1 i j _ _ hij hinv.blank_in
        (by rw [hb, h0, hinv.blank_zero])
      exact adjacent_ne i j _ _ ((borders_iff_adjacent s i j).1 hbord) hcell
    · omega
    · omega

/-- Witness for C11: `move(0)` on the fresh `3 x 3` board. -/
theorem move_zero_or_out_of_range_fails_witness :
    (move 0 fresh3).1 = false ∧ (move 0 fresh3).2 = fresh3 ∧
    fresh3.board fresh3.empty_column fresh3.empty_row = 0 ∧
    ¬ adjacent fresh3.empty_column fresh3.empty_row fresh3.empty_column fresh3.empty_row :=
  move_zero_or_out_of_range_fails fresh3 (by decide) (Reachable.init start3) 0 (Or.inl rfl)

/-- C13, the code at `d = 3`: `won()` leaves `d`, the board, the solved board and the blank
position as they are, but it does write to standard output, one newline for each row. -/
theorem won_prints_newlines :
    (won fresh3).2.d = fresh3.d ∧ (won fresh3).2.board = fresh3.board ∧
    (won fresh3).2.sorted_board = fresh3.sorted_board ∧
    (won fresh3).2.empty_column = fresh3.empty_column ∧
    (won fresh3).2.empty_row = fresh3.empty_row ∧
    fresh3.out = "" ∧ (won fresh3).2.out = "\n\n\n" ∧ (won fresh3).2.out ≠ fresh3.out :=
  ⟨rfl, rfl, rfl, rfl, rfl, rfl, by decide, by decide⟩

/-! ## `move` against its reference procedure -/

theorem firstCell_none (s : State) (tile : Int) (h : firstCell s tile = none) :
    ∀ i j, inBoard s.d i j → s.board i j ≠ tile := by
  intro i j hij hb
  unfold firstCell at h
  rw [List.findSome?_eq_none_iff] at h
  have h1 := h i ((mem_intRange _ _).2 ⟨hij.1, hij.2.1⟩)
  rw [List.findSome?_eq_none_iff] at h1
  have h2 := h1 j ((mem_intRange _ _).2 ⟨hij.2.2.1, hij.2.2.2⟩)
  simp [hb] at h2

theorem firstCell_some (s : State) (tile i j : Int) (h : firstCell s tile = some (i, j)) :
    inBoard s.d i j ∧ s.board i j = tile := by
  unfold firstCell at h
  obtain ⟨x, hx, h1⟩ := List.exists_of_findSome?_eq_some h
  obtain ⟨y, hy, h2⟩ := List.exists_of_findSome?_eq_some h1
  rw [mem_intRange] at hx hy
  split_ifs at h2 with c
  simp only [Option.some.injEq, Prod.mk.injEq] at h2
  obtain ⟨rfl, rfl⟩ := h2
  exact ⟨⟨hx.1, hx.2, hy.1, hy.2⟩, c⟩

theorem move_eq_moveRef_of_distinct (tile : Int) (s : State) (h : Distinct s.d s.board) :
    move tile s = moveRef tile s := by
  unfold moveRef
  cases hf : firstCell s tile with
  | none =>
    have hno := firstCell_none s tile hf
    rcases move_cases tile s with ⟨e, -⟩ | ⟨i, j, hij, hb, -, -⟩
    · exact e
    · exact absurd hb (hno i j hij)
  | some c =>
    obtain ⟨i, j⟩ := c
    obtain ⟨hij, hb⟩ := firstCell_some s tile i j hf
    show move tile s =
      if adjacent i j s.empty_column s.empty_row then (true, moved s tile i j) else (false, s)
    rcases move_cases tile s with ⟨e, hno⟩ | ⟨x, y, hxy, hx, hbord, e⟩
    · rw [if_neg (fun hadj => hno i j hij hb ((borders_iff_adjacent s i j).2 hadj))]
      exact e
    · obtain ⟨rfl, rfl⟩ := h x y i j hxy hij (hx.trans hb.symm)
      rw [if_pos ((borders_iff_adjacent s x y).1 hbord)]
      exact e

/-- C15: for `3 ≤ d ≤ 9` and every board whose `d*d` values are pairwise distinct, in
particular in every state reachable from `init()`, `move(tile)` has the same return value and
the same resulting state as the reference procedure `moveRef`: find the first cell in
row-major order that holds `tile`; fail if there is none; otherwise succeed and exchange if
and only if that cell is adjacent to the blank. -/
theorem move_refines_reference (s : State) (hd : 3 ≤ s.d ∧ s.d ≤ 9) (tile : Int)
    (h : Distinct s.d s.board ∨ Reachable s) : move tile s = moveRef tile s := by
  rcases h with h | h
  · exact move_eq_moveRef_of_distinct tile s h
  · exact move_eq_moveRef_of_distinct tile s (h.inv hd.1).bij.2.1

/-- Witness for C15: tile `3`, which is on the fresh `3 x 3` board next to the blank. -/
theorem move_refines_reference_witness :
    move 3 fresh3 = moveRef 3 fresh3 ∧ (moveRef 3 fresh3).1 = true :=
  ⟨move_refines_reference fresh3 (by decide) 3 (Or.inr (Reachable.init start3)), by decide⟩

/-! ## The legal moves of a state -/

theorem move_true_iff (s : State) (t : Int) :
    (move t s).1 = true ↔
      ∃ i j, inBoard s.d i j ∧ s.board i j = t ∧ adjacent i j s.empty_column s.empty_row := by
  constructor
  · intro h
    rcases move_cases t s with ⟨e, -⟩ | ⟨i, j, hij, hb, hbord, -⟩
    · rw [e] at h; exact absurd h Bool.false_ne_true
    · exact ⟨i, j, hij, hb, (borders_iff_adjacent s i j).1 hbord⟩
  · rintro ⟨i, j, hij, hb, hadj⟩
    rcases move_cases t s with ⟨-, hno⟩ | ⟨x, y, -, -, -, e⟩
    · exact absurd ((borders_iff_adjacent s i j).2 hadj) (hno i j hij hb)
    · rw [e]

theorem mem_neighbours (s : State) (c : Int × Int) :
    c ∈ neighbours s ↔ inBoard s.d c.1 c.2 ∧ adjacent c.1 c.2 s.empty_column s.empty_row := by
  obtain ⟨i, j⟩ := c
  unfold neighbours adjacent
  simp only [List.mem_filter, List.mem_cons, List.mem_singleton, Prod.mk.injEq,
    decide_eq_true_eq, List.mem_nil_iff, or_false]
  constructor
  · rintro ⟨h, hin⟩
    exact ⟨hin, by omega⟩
  · rintro ⟨hin, h⟩
    exact ⟨by omega, hin⟩

theorem neighbours_nodup (s : State) : (neighbours s).Nodup := by
  unfold neighbours
  apply List.Nodup.filter
  simp only [List.nodup_cons, List.mem_cons, List.mem_singleton, Prod.mk.injEq,
    List.not_mem_nil, not_false_eq_true, List.nodup_nil, and_true, or_false, true_and]
  refine ⟨?_, ?_, ?_⟩ <;> omega

theorem neighbours_length (s : State) (hd : 3 ≤ s.d)
    (hb : inBoard s.d s.empty_column s.empty_row) :
    (neighbours s).length =
      4 - (if onBorder s.d s.empty_column then 1 else 0)
        - (if onBorder s.d s.empty_row then 1 else 0) := by
  obtain ⟨h1, h2, h3, h4⟩ := hb
  unfold neighbours onBorder inBoard
  simp only [List.filter_cons, List.filter_nil, decide_eq_true_eq]
  split_ifs <;> first | rfl | (exfalso; omega)

theorem intRange_nodup (n : Int) : (intRange n).Nodup := by
  unfold intRange
  exact (List.nodup_range _).map (fun a b h => Int.ofNat.inj h)

theorem mem_legalTiles (s : State) (h : Inv s) (t : Int) :
    t ∈ legalTiles s ↔ (move t s).1 = true := by
  unfold legalTiles
  rw [List.mem_filter, mem_intRange]
  constructor
  · exact fun h1 => h1.2
  · intro h1
    obtain ⟨i, j, hij, hb, -⟩ := (move_true_iff s t).1 h1
    have := h.bij.1 i j hij
    rw [hb] at this
    exact ⟨this, h1⟩

theorem legalTiles_perm (s : State) (h : Inv s) :
    (legalTiles s).Perm ((neighbours s).map (fun c => s.board c.1 c.2)) := by
  have hn : ((neighbours s).map (fun c => s.board c.1 c.2)).Nodup := by
    refine List.Nodup.map_on ?_ (neighbours_nodup s)
    intro x hx y hy hxy
    have h1 := ((mem_neighbours s x).1 hx).1
    have h2 := ((mem_neighbours s y).1 hy).1
    have := h.bij.2.1 x.1 x.2 y.1 y.2 h1 h2 hxy
    exact Prod.ext this.1 this.2
  have hl : (legalTiles s).Nodup := (intRange_nodup _).filter _
  rw [List.perm_ext_iff_of_nodup hl hn]
  intro t
  rw [mem_legalTiles s h, move_true_iff, List.mem_map]
  constructor
  · rintro ⟨i, j, hij, hb, hadj⟩
    exact ⟨(i, j), (mem_neighbours s (i, j)).2 ⟨hij, hadj⟩, hb⟩
  · rintro ⟨c, hc, hb⟩
    obtain ⟨hin, hadj⟩ := (mem_neighbours s c).1 hc
    exact ⟨c.1, c.2, hin, hb, hadj⟩

/-- C17: for `3 ≤ d ≤ 9` and every state reachable from `init()`, the tile labels `t` for
which `move(t)` returns `true` are the members of the duplicate-free list `legalTiles`; their
number is the number of cells of the board that are 4-adjacent to the blank, it is at least
`2` and at most `4`, and it is `2` when the blank is in a corner, `3` when it is elsewhere on
an edge, and `4` in the interior. -/
theorem no_dead_end (s : State) (hd : 3 ≤ s.d ∧ s.d ≤ 9) (hr : Reachable s) :
    (∀ t, (move t s).1 = true ↔ t ∈ legalTiles s) ∧
    (legalTiles s).Nodup ∧
    (∀ c, c ∈ neighbours s ↔
      inBoard s.d c.1 c.2 ∧ adjacent c.1 c.2 s.empty_column s.empty_row) ∧
    (neighbours s).Nodup ∧
    (legalTiles s).length = (neighbours s).length ∧
    2 ≤ (legalTiles s).length ∧ (legalTiles s).length ≤ 4 ∧
    (onBorder s.d s.empty_column ∧ onBorder s.d s.empty_row → (legalTiles s).length = 2) ∧
    ((onBorder s.d s.empty_column ∧ ¬ onBorder s.d s.empty_row) ∨
      (¬ onBorder s.d s.empty_column ∧ onBorder s.d s.empty_row) →
        (legalTiles s).length = 3) ∧
    (¬ onBorder s.d s.empty_column ∧ ¬ onBorder s.d s.empty_row →
      (legalTiles s).length = 4) := by
  have hinv := hr.inv hd.1
  have hlen : (legalTiles s).length = (neighbours s).length := by
    rw [(legalTiles_perm s hinv).length_eq, List.length_map]
  have hcount := neighbours_length s hd.1 hinv.blank_in
  rw [← hlen] at hcount
  refine ⟨fun t => (mem_legalTiles s hinv t).symm, (intRange_nodup _).filter _,
    mem_neighbours s, neighbours_nodup s, hlen, ?_, ?_, ?_, ?_, ?_⟩
  · rw [hcount]; split_ifs <;> decide
  · rw [hcount]; split_ifs <;> decide
  · rintro ⟨h1, h2⟩
    rw [hcount, if_pos h1, if_pos h2]
  · rintro (⟨h1, h2⟩ | ⟨h1, h2⟩)
    · rw [hcount, if_pos h1, if_neg h2]
    · rw [hcount, if_neg h1, if_pos h2]
  · rintro ⟨h1, h2⟩
    rw [hcount, if_neg h1, if_neg h2]

/-- Witness for C17: on the fresh `3 x 3` board the blank is in a corner and exactly the
tiles `3` and `1` can be moved. -/
theorem no_dead_end_witness :
    legalTiles fresh3 = [1, 3] ∧ (legalTiles fresh3).length = (neighbours fresh3).length ∧
    2 ≤ (legalTiles fresh3).length ∧ (legalTiles fresh3).length ≤ 4 :=
  have h := no_dead_end fresh3 (by decide) (Reachable.init start3)
  ⟨by decide, h.2.2.2.2.1, h.2.2.2.2.2.1, h.2.2.2.2.2.2.1⟩

/-! ## `draw` -/

theorem foldl_append_joinAll {α : Type} (f : α → String) (l : List α) (out : String) :
    l.foldl (fun o x => o ++ f x) out = out ++ joinAll (l.map f) := by
  induction l generalizing out with
  | nil => simp [joinAll]
  | cons x xs ih =>
    rw [List.foldl_cons, ih, List.map_cons, joinAll, String.append_assoc]

theorem draw_out (s : State) :
    (draw s).out = s.out ++ joinAll ((intRange s.d).map (fun i =>
      joinAll ((intRange s.d).map (fun j => drawCell s i j)) ++ "\n")) := by
  show (intRange s.d).foldl (drawRow s) s.out = _
  have h : drawRow s = fun o i =>
      o ++ (joinAll ((intRange s.d).map (fun j => drawCell s i j)) ++ "\n") := by
    funext o i
    unfold drawRow
    rw [foldl_append_joinAll, String.append_assoc]
  rw [h, foldl_append_joinAll]

/-- A tile number is never printed as the glyph of the blank. -/
theorem printf_2i_ne_glyph (v : Int) (h0 : 0 ≤ v) (h1 : v < 81) : printf_2i v ≠ " _ " := by
  interval_cases v <;> decide


theorem drawCell_eq (s : State) (h : Inv s) (i j : Int) (hij : inBoard s.d i j) :
    drawCell s i j = if s.board i j = 0 then " _ " else printf_2i (s.board i j) := by
  unfold drawCell
  by_cases c : i = s.empty_column ∧ j = s.empty_row
  · rw [if_pos c, c.1, c.2, if_pos h.blank_zero]
  · rw [if_neg c, if_neg]
    intro hz
    exact c (h.bij.2.1 i j _ _ hij h.blank_in (hz.trans h.blank_zero.symm))

theorem draw_out_render (s : State) (h : Inv s) : (draw s).out = s.out ++ render s := by
  rw [draw_out]
  unfold render
  congr 2
  apply List.map_congr_left
  intro i hi
  congr 2
  apply List.map_congr_left
  intro j hj
  rw [mem_intRange] at hi hj
  exact drawCell_eq s h i j ⟨hi.1, hi.2, hj.1, hj.2⟩

/-- C16: for `3 ≤ d ≤ 9` and every state reachable from `init()`, `draw()` appends to the
output the `d` rows top to bottom, each with its `d` cells left to right and a newline, the
cell that holds `0` as the glyph `" _ "` and every other cell as its number (`render`), and
changes no global.  A cell is printed as the glyph exactly when it holds `0`; exactly one
cell of the board is, the blank; a cell that holds a tile is printed as its number; and the
blank is not printed as the number `0`. -/
theorem draw_renders_board (s : State) (hd : 3 ≤ s.d ∧ s.d ≤ 9) (hr : Reachable s) :
    (draw s).out = s.out ++ render s ∧
    (draw s).d = s.d ∧ (draw s).board = s.board ∧
    (draw s).sorted_board = s.sorted_board ∧
    (draw s).empty_column = s.empty_column ∧ (draw s).empty_row = s.empty_row ∧
    (∀ i j, inBoard s.d i j → (drawCell s i j = " _ " ↔ s.board i j = 0)) ∧
    (∃ i j, inBoard s.d i j ∧ drawCell s i j = " _ " ∧
      ∀ x y, inBoard s.d x y → drawCell s x y = " _ " → x = i ∧ y = j) ∧
    (∀ i j, inBoard s.d i j → s.board i j ≠ 0 →
      drawCell s i j = printf_2i (s.board i j)) ∧
    drawCell s s.empty_column s.empty_row ≠ printf_2i 0 := by
  have hinv := hr.inv hd.1
  have hglyph : ∀ i j, inBoard s.d i j → (drawCell s i j = " _ " ↔ s.board i j = 0) := by
    intro i j hij
    rw [drawCell_eq s hinv i j hij]
    by_cases hz : s.board i j = 0
    · rw [if_pos hz]; exact ⟨fun _ => hz, fun _ => rfl⟩
    · rw [if_neg hz]
      have hrange := hinv.bij.1 i j hij
      have hdd : s.d * s.d ≤ 81 := by nlinarith [hd.1, hd.2]
      exact ⟨fun h => absurd h (printf_2i_ne_glyph _ hrange.1 (by omega)),
        fun h => absurd h hz⟩
  refine ⟨draw_out_render s hinv, rfl, rfl, rfl, rfl, rfl, hglyph, ?_, ?_, ?_⟩
  · refine ⟨s.empty_column, s.empty_row, hinv.blank_in,
      (hglyph _ _ hinv.blank_in).2 hinv.blank_zero, fun x y hxy hx => ?_⟩
    exact hinv.bij.2.1 x y _ _ hxy hinv.blank_in
      (((hglyph x y hxy).1 hx).trans hinv.blank_zero.symm)
  · intro i j hij hz
    rw [drawCell_eq s hinv i j hij, if_neg hz]
  · unfold drawCell
    rw [if_pos ⟨rfl, rfl⟩]
    decide

/-- Witness for C16: the fresh `3 x 3` board as `draw()` prints it. -/
theorem draw_renders_board_witness :
    (draw fresh3).out = " 8  7  6 \n 5  4  3 \n 2  1  _ \n" ∧
    (draw fresh3).out = fresh3.out ++ render fresh3 :=
  ⟨by decide, (draw_renders_board fresh3 (by decide) (Reachable.init start3)).1⟩

/-! ## `main` -/

theorem gameLoop_calls (inputs : List Int) (r : Run) (c : Call) (h : c ∈ r.calls) :
    c ∈ (gameLoop inputs r).calls := by
  induction inputs generalizing r with
  | nil =>
    unfold gameLoop
    simp only [turnStart]
    split_ifs <;> simp [h]
  | cons tile rest ih =>
    unfold gameLoop
    simp only [turnStart]
    split_ifs
    all_goals first | (apply ih; simp [h]) | simp [h]

/-- C14 as stated fails: with a valid dimension `3` and `log.txt` failing to open, `main`
returns `3` without calling `init()`. -/
theorem main_valid_dimension_without_init :
    ¬ (Call.init ∈ (main 2 3 false [] start3).calls ↔ ((3 : Int) ≤ 3 ∧ (3 : Int) ≤ 9)) ∧
    (main 2 3 false [] start3).exit = some 3 := by
  refine ⟨?_, rfl⟩
  intro h
  have h1 : Call.init ∈ (main 2 3 false [] start3).calls := h.2 (by decide)
  revert h1
  decide

/-- C14, amended: for every integer `d` parsed from the single command-line argument, `main`
calls `init()` if and only if `3 ≤ d ≤ 9` and `log.txt` could be opened; for every `d < 3`
or `d > 9` it returns exit status `2` having called neither `init()` nor `move()` nor any
other puzzle function; and for `3 ≤ d ≤ 9` with `log.txt` failing to open it returns `3`,
again without a call. -/
theorem main_validates_dimension (arg : Int) (fileOpens : Bool) (inputs : List Int)
    (s : State) :
    (Call.init ∈ (main 2 arg fileOpens inputs s).calls ↔
      (3 ≤ arg ∧ arg ≤ 9 ∧ fileOpens = true)) ∧
    (arg < 3 ∨ arg > 9 →
      (main 2 arg fileOpens inputs s).exit = some 2 ∧
      (main 2 arg fileOpens inputs s).calls = []) ∧
    (3 ≤ arg ∧ arg ≤ 9 → fileOpens = false →
      (main 2 arg fileOpens inputs s).exit = some 3 ∧
      (main 2 arg fileOpens inputs s).calls = []) := by
  unfold main
  simp only [ne_eq, not_true_eq_false, if_false, DIM_MIN, DIM_MAX]
  by_cases hbad : arg < 3 ∨ arg > 9
  · rw [if_pos hbad]
    refine ⟨?_, fun _ => ⟨rfl, rfl⟩, fun h => by omega⟩
    simp only [List.not_mem_nil, false_iff]
    omega
  · rw [if_neg hbad]
    cases fileOpens with
    | false =>
      rw [if_pos rfl]
      refine ⟨?_, fun h => absurd h hbad, fun _ _ => ⟨rfl, rfl⟩⟩
      simp
    | true =>
      rw [if_neg (by decide)]
      refine ⟨?_, fun h => absurd h hbad, fun _ h => absurd h (by decide)⟩
      constructor
      · intro _
        exact ⟨by omega, by omega, rfl⟩
      · intro _
        exact gameLoop_calls inputs _ Call.init (by simp)

/-- Witness for C14: dimension `10` is rejected with exit status `2` and no call at all. -/
theorem main_validates_dimension_witness :
    (main 2 10 true [1, 2] start3).exit = some 2 ∧ (main 2 10 true [1, 2] start3).calls = [] :=
  (main_validates_dimension 10 true [1, 2] start3).2.1 (by decide)

/-! ## Packed boards -/

theorem cellAt_pack (cells : List Nat) (h : ∀ c ∈ cells, c < 128) (k : Nat) :
    cellAt (pack cells) k = cells.getD k 0 := by
  induction cells generalizing k with
  | nil => simp [cellAt, pack]
  | cons c cs ih =>
    have hc : c < 128 := h c (List.mem_cons_self _ _)
    have hcs : ∀ x ∈ cs, x < 128 := fun x hx => h x (List.mem_cons_of_mem _ hx)
    cases k with
    | zero =>
      simp only [cellAt, pack, pow_zero, Nat.div_one, List.getD_cons_zero]
      omega
    | succ k =>
      rw [List.getD_cons_succ, ← ih hcs k]
      unfold cellAt
      rw [pack, pow_succ', ← Nat.div_div_eq_div_mul]
      have e : (c + 128 * pack cs) / 128 = pack cs := by omega
      rw [e]

theorem pack_set (cells : List Nat) (k v : Nat) (hk : k < cells.length) :
    pack (cells.set k v) + cells.getD k 0 * 128 ^ k = pack cells + v * 128 ^ k := by
  induction cells generalizing k with
  | nil => simp at hk
  | cons c cs ih =>
    cases k with
    | zero =>
      simp only [List.set_cons_zero, pack, List.getD_cons_zero, pow_zero]
      omega
    | succ k =>
      have h := ih k (by simpa using hk)
      simp only [List.set_cons_succ, pack, List.getD_cons_succ]
      have e1 : cs.getD k 0 * 128 ^ (k + 1) = 128 * (cs.getD k 0 * 128 ^ k) := by ring
      have e2 : v * 128 ^ (k + 1) = 128 * (v * 128 ^ k) := by ring
      rw [e1, e2]
      omega

theorem cell_index_inj_nat (d i j x y : Nat) (hj : j < d) (hy : y < d)
    (h : i * d + j = x * d + y) : i = x ∧ j = y := by
  have := cell_index_inj d i j x y ⟨by omega, by exact_mod_cast hj⟩
    ⟨by omega, by exact_mod_cast hy⟩ (by exact_mod_cast h)
  exact ⟨by exact_mod_cast this.1, by exact_mod_cast this.2⟩

theorem cell_index_lt (d i j : Nat) (hi : i < d) (hj : j < d) : i * d + j < d * d := by
  have : (i + 1) * d ≤ d * d := Nat.mul_le_mul_right d hi
  have e : (i + 1) * d = i * d + d := by ring
  omega

theorem mem_neighbourCells (d bi bj : Nat) (hbi : bi < d) (hbj : bj < d) (c : Nat × Nat)
    (h : c ∈ neighbourCells d bi bj) :
    c.1 < d ∧ c.2 < d ∧ adjacent c.1 c.2 bi bj := by
  obtain ⟨i, j⟩ := c
  unfold neighbourCells at h
  simp only [List.mem_append] at h
  unfold adjacent
  rcases h with ((h | h) | h) | h <;> split_ifs at h <;>
    simp only [List.mem_singleton, Prod.mk.injEq, List.not_mem_nil] at h <;>
    obtain ⟨rfl, rfl⟩ := h <;> refine ⟨by omega, by omega, ?_⟩ <;> omega

theorem getD_set_set (cells : List Nat) (a b m t : Nat) (ha : a < cells.length) :
    ((cells.set a t).set b 0).getD m 0 =
      if m = b then 0 else if m = a then t else cells.getD m 0 := by
  by_cases hm : m < cells.length
  · have hm1 : m < ((cells.set a t).set b 0).length := by simpa using hm
    rw [List.getD_eq_getElem _ _ hm1, List.getElem_set, List.getElem_set,
      List.getD_eq_getElem _ _ hm]
    split_ifs <;> first | rfl | (exfalso; omega)
  · have hm1 : ((cells.set a t).set b 0).length ≤ m := by simpa using Nat.le_of_not_lt hm
    rw [List.getD_eq_default _ _ hm1, List.getD_eq_default _ _ (Nat.le_of_not_lt hm)]
    split_ifs <;> first | rfl | (exfalso; omega)

/-- One move on the packed board is one successful `move` of the program. -/
theorem fastMove_sim (d : Nat) (s : State) (g g1 : Packed) (t : Nat) (hrep : Rep d s g)
    (hinv : Inv s) (h : fastMove d t g = some g1) :
    (move (t : Int) s).1 = true ∧ Rep d (move (t : Int) s).2 g1 ∧
      Inv (move (t : Int) s).2 := by
  obtain ⟨hd, hbi, hbj, hbi_lt, hbj_lt, cells, hpack, hlen, hbound, hboard⟩ := hrep
  unfold fastMove at h
  cases hf : (neighbourCells d g.bi g.bj).find?
      (fun c => cellAt g.cells (c.1 * d + c.2) == t) with
  | none => rw [hf] at h; exact absurd h (by simp)
  | some c =>
    rw [hf] at h
    simp only [Option.some.injEq] at h
    obtain ⟨i, j⟩ := c
    obtain ⟨hi, hj, hadj⟩ :=
      mem_neighbourCells d g.bi g.bj hbi_lt hbj_lt (i, j) (List.mem_of_find?_eq_some hf)
    have hp := List.find?_some hf
    simp only [beq_iff_eq] at hp
    have hk : i * d + j < cells.length := hlen ▸ cell_index_lt d i j hi hj
    have hkb : g.bi * d + g.bj < cells.length := hlen ▸ cell_index_lt d _ _ hbi_lt hbj_lt
    have hcell : cells.getD (i * d + j) 0 = t := by
      rw [← cellAt_pack cells hbound, ← hpack]; exact hp
    have hzero : cells.getD (g.bi * d + g.bj) 0 = 0 := by
      have h1 := hboard g.bi g.bj hbi_lt hbj_lt
      rw [← hbi, ← hbj, hinv.blank_zero] at h1
      exact_mod_cast h1.symm
    have hb : s.board i j = (t : Int) := by rw [hboard i j hi hj, hcell]
    have hin : inBoard s.d i j := by
      rw [hd]
      exact ⟨by omega, by exact_mod_cast hi, by omega, by exact_mod_cast hj⟩
    have hadj1 : adjacent i j s.empty_column s.empty_row := by rw [hbi, hbj]; exact hadj
    have hne : i * d + j ≠ g.bi * d + g.bj := by
      intro e
      obtain ⟨e1, e2⟩ := cell_index_inj_nat d i j g.bi g.bj hj hbj_lt e
      exact adjacent_ne _ _ _ _ hadj ⟨by exact_mod_cast e1, by exact_mod_cast e2⟩
    rw [move_of_adjacent s hinv t i j hin hb hadj1]
    refine ⟨rfl, ?_, moved_inv s t i j hinv hin hb⟩
    subst h
    refine ⟨hd, rfl, rfl, hi, hj, (cells.set (g.bi * d + g.bj) t).set (i * d + j) 0,
      ?_, by simpa using hlen, ?_, ?_⟩
    · have p1 := pack_set cells (g.bi * d + g.bj) t hkb
      have p2 := pack_set (cells.set (g.bi * d + g.bj) t) (i * d + j) 0 (by simpa using hk)
      have e3 : (cells.set (g.bi * d + g.bj) t).getD (i * d + j) 0 = t := by
        rw [List.getD_eq_getElem _ _ (by simpa using hk), List.getElem_set,
          if_neg (fun e => hne e.symm), ← List.getD_eq_getElem _ 0 hk, hcell]
      rw [hzero] at p1
      rw [e3] at p2
      show g.cells + t * 128 ^ (g.bi * d + g.bj) - t * 128 ^ (i * d + j) = _
      rw [hpack]
      omega
    · intro c hc
      have ht : t < 128 := by
        rw [← hcell, List.getD_eq_getElem _ _ hk]
        exact hbound _ (List.getElem_mem _)
      rcases List.mem_or_eq_of_mem_set hc with h1 | h1
      · rcases List.mem_or_eq_of_mem_set h1 with h2 | h2
        · exact hbound c h2
        · omega
      · omega
    · intro x y hx hy
      rw [getD_set_set cells _ _ _ t hkb]
      show setCell (setCell s.board s.empty_column s.empty_row (t : Int)) i j 0 x y = _
      unfold setCell
      by_cases c1 : x * d + y = i * d + j
      · obtain ⟨rfl, rfl⟩ := cell_index_inj_nat d x y i j hy hj c1
        rw [if_pos c1, if_pos ⟨rfl, rfl⟩]
        rfl
      · have n1 : ¬((x : Int) = i ∧ (y : Int) = j) := by
          rintro ⟨e1, e2⟩
          exact c1 (by rw [Int.ofNat_inj.1 e1, Int.ofNat_inj.1 e2])
        rw [if_neg c1, if_neg n1]
        by_cases c2 : x * d + y = g.bi * d + g.bj
        · obtain ⟨rfl, rfl⟩ := cell_index_inj_nat d x y g.bi g.bj hy hbj_lt c2
          rw [if_pos c2, if_pos ⟨hbi.symm, hbj.symm⟩]
        · have n2 : ¬((x : Int) = s.empty_column ∧ (y : Int) = s.empty_row) := by
            rintro ⟨e1, e2⟩
            rw [hbi] at e1
            rw [hbj] at e2
            exact c2 (by rw [Int.ofNat_inj.1 e1, Int.ofNat_inj.1 e2])
          rw [if_neg c2, if_neg n2]
          exact hboard x y hx hy

/-- A sequence of moves on the packed board is a sequence of successful calls of `move`. -/
theorem fastPlay_sim (d : Nat) (ts : List Nat) (s : State) (g g1 : Packed) (hrep : Rep d s g)
    (hinv : Inv s) (h : fastPlay d ts g = some g1) :
    ∃ s1, play (ts.map Int.ofNat) s = some s1 ∧ Rep d s1 g1 ∧ Inv s1 := by
  induction ts generalizing s g with
  | nil =>
    simp only [fastPlay, Option.some.injEq] at h
    subst h
    exact ⟨s, rfl, hrep, hinv⟩
  | cons t ts ih =>
    unfold fastPlay at h
    cases hf : fastMove d t g with
    | none => rw [hf] at h; exact absurd h (by simp)
    | some g2 =>
      rw [hf] at h
      obtain ⟨hm, hrep2, hinv2⟩ := fastMove_sim d s g g2 t hrep hinv hf
      obtain ⟨s1, hp, hr1, hi1⟩ := ih _ g2 hrep2 hinv2 h
      refine ⟨s1, ?_, hr1, hi1⟩
      simp only [List.map_cons, play, Int.ofNat_eq_coe, hm, if_true]
      exact hp

theorem getD_map_range (f : Nat → Nat) (n k : Nat) (hk : k < n) :
    ((List.range n).map f).getD k 0 = f k := by
  rw [List.getD_eq_getElem _ _ (by simpa using hk)]
  simp

theorem startCells_bound (d : Nat) (hd : d ≤ 9) : ∀ c ∈ startCells d, c < 128 := by
  intro c hc
  unfold startCells at hc
  obtain ⟨k, -, rfl⟩ := List.mem_map.1 hc
  have : d * d ≤ 81 := Nat.mul_le_mul hd hd
  split_ifs <;> omega

theorem solvedCells_bound (d : Nat) (hd : d ≤ 9) : ∀ c ∈ solvedCells d, c < 128 := by
  intro c hc
  unfold solvedCells at hc
  obtain ⟨k, hk, rfl⟩ := List.mem_map.1 hc
  have : d * d ≤ 81 := Nat.mul_le_mul hd hd
  have := List.mem_range.1 hk
  split_ifs <;> omega

/-- The packed start board stands for the state after `init()`. -/
theorem rep_init (d : Nat) (hd3 : 3 ≤ d) (hd9 : d ≤ 9) (s0 : State) (hs : s0.d = d) :
    Rep d (init s0) { cells := pack (startCells d), bi := d - 1, bj := d - 1 } := by
  refine ⟨hs, ?_, ?_, ?_, ?_, startCells d, rfl, by simp [startCells],
    startCells_bound d hd9, ?_⟩
  · show s0.d - 1 = ((d - 1 : Nat) : Int)
    rw [hs]; omega
  · show s0.d - 1 = ((d - 1 : Nat) : Int)
    rw [hs]; omega
  · show d - 1 < d
    omega
  · show d - 1 < d
    omega
  · intro i j hi hj
    have hk := cell_index_lt d i j hi hj
    have hin : inBoard s0.d i j := by
      rw [hs]
      exact ⟨by omega, by exact_mod_cast hi, by omega, by exact_mod_cast hj⟩
    have hlast : (d - 1) * d + d = d * d := by
      have : (d - 1 + 1) * d = (d - 1) * d + d := by ring
      rw [Nat.sub_add_cancel (by omega)] at this
      omega
    rw [init_board s0 (by omega) i j hin]
    unfold startCells
    rw [getD_map_range _ _ _ hk, hs]
    have hmod : ((d : Int) % 2 = 0) ↔ d % 2 = 0 := by omega
    by_cases c1 : d % 2 = 0 ∧ i * d + j + 3 = d * d
    · obtain ⟨e1, e2⟩ := cell_index_inj_nat d i j (d - 1) (d - 3) hj (by omega) (by omega)
      rw [if_pos c1, if_pos ⟨hmod.2 c1.1, by omega, by omega⟩]
      rfl
    · have n1 : ¬((d : Int) % 2 = 0 ∧ (i : Int) = d - 1 ∧ (j : Int) = d - 3) := by
        rintro ⟨e0, e1, e2⟩
        have e3 : i = d - 1 := by omega
        have e4 : j = d - 3 := by omega
        apply c1
        refine ⟨hmod.1 e0, ?_⟩
        rw [e3, e4]
        omega
      rw [if_neg c1, if_neg n1]
      by_cases c2 : d % 2 = 0 ∧ i * d + j + 2 = d * d
      · obtain ⟨e1, e2⟩ := cell_index_inj_nat d i j (d - 1) (d - 2) hj (by omega) (by omega)
        rw [if_pos c2, if_pos ⟨hmod.2 c2.1, by omega, by omega⟩]
        rfl
      · have n2 : ¬((d : Int) % 2 = 0 ∧ (i : Int) = d - 1 ∧ (j : Int) = d - 2) := by
          rintro ⟨e0, e1, e2⟩
          have e3 : i = d - 1 := by omega
          have e4 : j = d - 2 := by omega
          apply c2
          refine ⟨hmod.1 e0, ?_⟩
          rw [e3, e4]
          omega
        rw [if_neg c2, if_neg n2]
        have e5 : ((d * d - 1 - (i * d + j) : Nat) : Int) =
            ((d * d : Nat) : Int) - 1 - ((i * d + j : Nat) : Int) := by omega
        rw [e5]
        push_cast
        ring

/-- A state whose packed board is the packed solved board is won. -/
theorem rep_solved (d : Nat) (hd9 : d ≤ 9) (s : State) (g : Packed) (hrep : Rep d s g)
    (hinv : Inv s) (hg : g.cells = pack (solvedCells d)) : (won s).1 = true := by
  obtain ⟨hd, -, -, -, -, cells, hpack, -, hbound, hboard⟩ := hrep
  rw [won_true_iff]
  intro x y hxy
  rw [hinv.sorted x y hxy]
  obtain ⟨hx0, hx1, hy0, hy1⟩ := hxy
  rw [hd] at hx1 hy1
  obtain ⟨i, rfl⟩ := Int.eq_ofNat_of_zero_le hx0
  obtain ⟨j, rfl⟩ := Int.eq_ofNat_of_zero_le hy0
  have hi : i < d := by exact_mod_cast hx1
  have hj : j < d := by exact_mod_cast hy1
  have hk := cell_index_lt d i j hi hj
  have hcell : cells.getD (i * d + j) 0 = if i * d + j + 1 = d * d then 0 else i * d + j + 1 := by
    rw [← cellAt_pack cells hbound, ← hpack, hg, cellAt_pack _ (solvedCells_bound d hd9)]
    unfold solvedCells
    rw [getD_map_range _ _ _ hk]
  have hlast : (d - 1) * d + d = d * d := by
    have : (d - 1 + 1) * d = (d - 1) * d + d := by ring
    rw [Nat.sub_add_cancel (by omega)] at this
    omega
  rw [hboard i j hi hj, hcell, hd]
  by_cases c : i * d + j + 1 = d * d
  · obtain ⟨e1, e2⟩ := cell_index_inj_nat d i j (d - 1) (d - 1) hj (by omega) (by omega)
    rw [if_pos c, if_pos ⟨by omega, by omega⟩]
    rfl
  · have n : ¬((i : Int) = d - 1 ∧ (j : Int) = d - 1) := by
      rintro ⟨e1, e2⟩
      have e3 : i = d - 1 := by omega
      have e4 : j = d - 1 := by omega
      apply c
      rw [e3, e4]
      omega
    rw [if_neg c, if_neg n]
    push_cast
    ring

/-- A sequence of labels accepted by `solves` is a sequence of successful calls of `move`
that leads from the state after `init()` to a state in which `won()` returns `true`. -/
theorem solves_sound (d : Nat) (ts : List Nat) (h : solves d ts = true) (hd3 : 3 ≤ d)
    (hd9 : d ≤ 9) (s0 : State) (hs : s0.d = d) :
    ∃ final, play (ts.map Int.ofNat) (init s0) = some final ∧ (won final).1 = true := by
  unfold solves at h
  cases hf : fastPlay d ts { cells := pack (startCells d), bi := d - 1, bj := d - 1 } with
  | none => rw [hf] at h; exact absurd h Bool.false_ne_true
  | some g =>
    rw [hf] at h
    have hinv : Inv (init s0) := init_inv s0 (by rw [hs]; exact_mod_cast hd3)
    obtain ⟨s1, hp, hr1, hi1⟩ := fastPlay_sim d ts (init s0) _ g
      (rep_init d hd3 hd9 s0 hs) hinv hf
    exact ⟨s1, hp, rep_solved d hd9 s1 g hr1 hi1 (by simpa using h)⟩

theorem solves_solution3 : solves 3 solution3 = true := by decide!

theorem solves_solution4 : solves 4 solution4 = true := by decide!

theorem solves_solution5 : solves 5 solution5 = true := by decide!

theorem solves_solution6 : solves 6 solution6 = true := by decide!

theorem solves_solution7 : solves 7 solution7 = true := by decide!

theorem solves_solution8 : solves 8 solution8 = true := by decide!

theorem solves_solution9 : solves 9 solution9 = true := by decide!

/-- C12: for `3 ≤ d ≤ 9` there is a finite sequence of tile labels such that, from the state
`init()` produces, the calls of `move` for the labels in turn all return `true` and lead to
a state in which `won()` returns `true`. -/
theorem init_is_solvable (s : State) (hd : 3 ≤ s.d ∧ s.d ≤ 9) :
    ∃ tiles final, play tiles (init s) = some final ∧ (won final).1 = true := by
  have hcases : s.d = 3 ∨ s.d = 4 ∨ s.d = 5 ∨ s.d = 6 ∨ s.d = 7 ∨ s.d = 8 ∨ s.d = 9 := by
    omega
  rcases hcases with h | h | h | h | h | h | h
  · exact ⟨_, solves_sound 3 solution3 solves_solution3 (by decide) (by decide) s h⟩
  · exact ⟨_, solves_sound 4 solution4 solves_solution4 (by decide) (by decide) s h⟩
  · exact ⟨_, solves_sound 5 solution5 solves_solution5 (by decide) (by decide) s h⟩
  · exact ⟨_, solves_sound 6 solution6 solves_solution6 (by decide) (by decide) s h⟩
  · exact ⟨_, solves_sound 7 solution7 solves_solution7 (by decide) (by decide) s h⟩
  · exact ⟨_, solves_sound 8 solution8 solves_solution8 (by decide) (by decide) s h⟩
  · exact ⟨_, solves_sound 9 solution9 solves_solution9 (by decide) (by decide) s h⟩

/-- Witness for C12, at `d = 3`. -/
theorem init_is_solvable_witness :
    ∃ tiles final, play tiles (init start3) = some final ∧ (won final).1 = true :=
  init_is_solvable start3 (by decide)

end Fifteen
